import Mathlib

/-!
Verification development for the bobanetwork/erigon execution-layer core.

This file shallowly embeds, in Lean 4, the parts of the source that the
verified properties talk about:

* the rollup L1 data-availability fee function (`core/types/rollup_l1_cost.go`),
* the EIP-1559 base-fee calculation (`consensus/misc`, eip1559),
* the state-transition engine (`core`, state_transition: `buyGas`, `preCheck`,
  `innerTransitionDb`, `TransitionDb`, `refundGas`),
* the versioned domain storage (`erigon-lib/state/domain.go`: `get`,
  `readFromFiles`, `historyBeforeTxNum`, `GetBeforeTxNum`, `Put`,
  `BeginFilesRo`, `DomainRoTx.Close`),
* the transaction decoder (`erigon-lib/txpool` types: `parseSignature`,
  `ParseTransaction` / `parseTransactionBody`).

Machine integers are modelled as `Nat` with explicit reduction modulo `2^64`
or `2^256` where the Go code can overflow.  Collaborator code that is not part
of the embedded core (EVM execution, keccak, secp256k1 recovery, the intrinsic
gas table, the blob gas price oracle) is modelled as explicit function
parameters ("oracles") so that the control/data flow of the embedded functions
stays exactly that of the source.
-/

/-- Modulus of Go `uint256` values. -/
def U256 : ℕ := 2 ^ 256

/-- Modulus of Go `uint64` values. -/
def U64 : ℕ := 2 ^ 64

/-- Byte strings are lists of natural numbers (each value intended `< 256`). -/
abbrev Bytes := List ℕ

/-! ## L1 data-availability cost (`core/types/rollup_l1_cost.go`, `L1Cost`)

`L1Cost` computes `(rollupDataGas + overhead) * l1BaseFee * scalar / 1e6`
with all intermediate arithmetic in wrapping `uint256`. -/

/-- Embedding of `L1Cost(rollupDataGas uint64, l1BaseFee, overhead, scalar *uint256.Int)`:
`l1GasUsed := rollupDataGas + overhead; l1Cost := l1GasUsed * l1BaseFee * scalar; return l1Cost / 1_000_000`. -/
def L1Cost (rollupDataGas l1BaseFee overhead scalar : ℕ) : ℕ :=
  let l1GasUsed := (rollupDataGas + overhead) % U256
  let l1Cost := (l1GasUsed * l1BaseFee) % U256
  let l1Cost2 := (l1Cost * scalar) % U256
  l1Cost2 / 1000000

/-- Modelled from the spec: the Ecotone L1 fee formula referenced by the
"concrete scenario — L1 cost computation" testable property and by the
`ecotoneFee` fixture of `core/types/receipt_test.go`
(`(480/16)*(2*16*1000 + 3*10) == 960900`).  The implementing code
(the Ecotone cost function used by receipt derivation) is not under the
embedded sources; the formula is
`calldataGas * (16*baseFeeScalar*l1BaseFee + blobBaseFeeScalar*blobBaseFee) / (16 * 1e6)`. -/
def ecotoneL1Fee (calldataGas baseFeeScalar l1BaseFee blobBaseFeeScalar blobBaseFee : ℕ) : ℕ :=
  calldataGas * (16 * baseFeeScalar * l1BaseFee + blobBaseFeeScalar * blobBaseFee) / (16 * 1000000)

/-- The `ecotoneFee` fixture of `core/types/receipt_test.go`. -/
def ecotoneFeeFixture : ℕ := 960900

/-- The `bedrockFee` fixture of `core/types/receipt_test.go`. -/
def bedrockFeeFixture : ℕ := 11326000000000

/-! ## EIP-1559 base fee (`consensus/misc`, `CalcBaseFee`)

`big.Int` arithmetic is exact, so the embedding uses `ℤ` for base-fee values
and `ℕ` for the `uint64` header fields.  Paths on which the Go code panics
(zero elasticity or zero divisor handed to `big.Int.Div`, invalid Holocene
extra-data) are modelled as `none`. -/

/-- `params.InitialBaseFee`. -/
def initialBaseFee : ℕ := 1000000000

/-- `params.BaseFeeChangeDenominator`. -/
def baseFeeChangeDenomDefault : ℕ := 8

/-- `params.BaseFeeChangeDenominatorPostDelhi`. -/
def baseFeeChangeDenomPostDelhi : ℕ := 16

/-- Chain-configuration interface used by `CalcBaseFee`, with the config
methods resolved to functions of block number / time. -/
structure BaseFeeConfig where
  isOptimismPreBedrock : ℕ → Bool
  isLondon : ℕ → Bool
  /-- `config.ElasticityMultiplier(params.ElasticityMultiplier)`. -/
  elasticityMultiplier : ℕ
  isOptimism : Bool
  /-- `config.IsHolocene(parent.Time)`. -/
  isHolocene : ℕ → Bool
  /-- `config.Bor != nil && borConfig.IsDelhi(number)`. -/
  borIsDelhi : ℕ → Bool
  /-- `config.BaseFeeChangeDenominator(params.BaseFeeChangeDenominator, time)`. -/
  baseFeeChangeDenomAt : ℕ → ℕ

/-- Header fields consumed by `CalcBaseFee`. -/
structure HeaderM where
  number : ℕ
  time : ℕ
  gasLimit : ℕ
  gasUsed : ℕ
  baseFee : ℤ
  extra : Bytes

/-- Embedding of `getBaseFeeChangeDenominator(config, number, time)`. -/
def getBaseFeeChangeDenominator (cfg : BaseFeeConfig) (number time : ℕ) : ℕ :=
  if cfg.borIsDelhi number then baseFeeChangeDenomPostDelhi
  else cfg.baseFeeChangeDenomAt time

/-- Embedding of `DecodeHolocene1559Params`: an 8-byte string decodes to
(denominator, elasticity), each a big-endian `uint32`; otherwise `(0, 0)`. -/
def decodeHolocene1559Params (p : Bytes) : ℕ × ℕ :=
  if p.length = 9 - 1 then
    (p.take 4 |>.foldl (fun acc b => acc * 256 + b) 0,
     p.drop 4 |>.foldl (fun acc b => acc * 256 + b) 0)
  else (0, 0)

/-- Embedding of `DecodeHoloceneExtraData`: a 9-byte string drops its version
byte and decodes the rest; otherwise `(0, 0)`. -/
def decodeHoloceneExtraData (extra : Bytes) : ℕ × ℕ :=
  if extra.length = 9 then decodeHolocene1559Params (extra.drop 1)
  else (0, 0)

/-- Embedding of `CalcBaseFee(config, parent, time)`.  Returns `none` exactly
where the Go code panics (zero Holocene denominator, division by zero in
`parent.GasLimit / elasticity` or in the `big.Int` divisions). -/
def CalcBaseFee (cfg : BaseFeeConfig) (parent : HeaderM) (time : ℕ) : Option ℤ :=
  if cfg.isOptimismPreBedrock parent.number then some 0
  else if ¬ cfg.isLondon parent.number then some (initialBaseFee : ℤ)
  else
    let pair :=
      if cfg.isOptimism ∧ cfg.isHolocene parent.time then
        decodeHoloceneExtraData parent.extra
      else
        (getBaseFeeChangeDenominator cfg parent.number time, cfg.elasticityMultiplier)
    let denominator := pair.1
    let elasticity := pair.2
    if cfg.isOptimism ∧ cfg.isHolocene parent.time ∧ denominator = 0 then none
    else if elasticity = 0 then none
    else
      let parentGasTarget := parent.gasLimit / elasticity
      if parent.gasUsed = parentGasTarget then some parent.baseFee
      else if parentGasTarget = 0 ∨ denominator = 0 then none
      else if parentGasTarget < parent.gasUsed then
        let gasUsedDelta : ℤ := (parent.gasUsed : ℤ) - (parentGasTarget : ℤ)
        let x := parent.baseFee * gasUsedDelta
        let y := x / (parentGasTarget : ℤ)
        let baseFeeDelta := max (y / (denominator : ℤ)) 1
        some (parent.baseFee + baseFeeDelta)
      else
        let gasUsedDelta : ℤ := (parentGasTarget : ℤ) - (parent.gasUsed : ℤ)
        let x := parent.baseFee * gasUsedDelta
        let y := x / (parentGasTarget : ℤ)
        let baseFeeDelta := y / (denominator : ℤ)
        some (max (parent.baseFee - baseFeeDelta) 0)

/-- The elasticity multiplier actually used by `CalcBaseFee` for a given
parent header (Holocene headers carry it in their extra-data). -/
def effectiveElasticity (cfg : BaseFeeConfig) (parent : HeaderM) : ℕ :=
  if cfg.isOptimism ∧ cfg.isHolocene parent.time then
    (decodeHoloceneExtraData parent.extra).2
  else cfg.elasticityMultiplier

/-- The denominator actually used by `CalcBaseFee` for a given parent header. -/
def effectiveDenominator (cfg : BaseFeeConfig) (parent : HeaderM) (time : ℕ) : ℕ :=
  if cfg.isOptimism ∧ cfg.isHolocene parent.time then
    (decodeHoloceneExtraData parent.extra).1
  else getBaseFeeChangeDenominator cfg parent.number time

/-! ### Theorems for the L1-cost fixture -/

/-- C3: the claim instantiates the repository's `L1Cost` at
`rollupDataGas=480`, `overhead=0`, `l1BaseFee=1000e6`, with the scalar given
by the quoted Ecotone expression `(480/16)*(2*16*1000e6 + 3*10)`; the quoted
expression itself evaluates to `960000000900`, not `960900`, and `L1Cost` at
these inputs does not return `960900` either. -/
theorem L1Cost_ecotone_fixture_mismatch :
    (480 / 16) * (2 * 16 * (1000 * 1000000) + 3 * 10) = 960000000900 ∧
    (480 / 16) * (2 * 16 * (1000 * 1000000) + 3 * 10) ≠ ecotoneFeeFixture ∧
    L1Cost 480 (1000 * 1000000) 0 ((480 / 16) * (2 * 16 * (1000 * 1000000) + 3 * 10))
      ≠ ecotoneFeeFixture := by
  refine ⟨by norm_num, by decide, ?_⟩
  show (480 % U256 * (1000 * 1000000) % U256 * 960000000900 % U256) / 1000000 ≠ 960900
  decide

/-- C3 (amended): the reference fixture `960900` is produced by the Ecotone
formula with the base fees contributing in units of `1e6` wei — explicitly,
`960900 = (480/16)*(2*16*1000 + 3*10)`, equivalently the Ecotone fee with
`calldataGas=480`, `baseFeeScalar=2`, `l1BaseFee=1000e6`, `blobBaseFeeScalar=3`,
`blobBaseFee=10e6` and the `16e6` scalar divisor; the repository's `L1Cost`
implements the Bedrock formula instead and reproduces the `bedrockFee` fixture
at the Bedrock test parameters. -/
theorem ecotone_fixture_formula_correct :
    ecotoneL1Fee 480 2 (1000 * 1000000) 3 (10 * 1000000) = ecotoneFeeFixture ∧
    (480 / 16) * (2 * 16 * 1000 + 3 * 10) = ecotoneFeeFixture ∧
    L1Cost 1618 (1000 * 1000000) 0 (7 * 1000000) = bedrockFeeFixture := by
  refine ⟨by norm_num [ecotoneL1Fee, ecotoneFeeFixture], by norm_num [ecotoneFeeFixture], ?_⟩
  show (1618 % U256 * (1000 * 1000000) % U256 * (7 * 1000000) % U256) / 1000000
      = 11326000000000
  decide

/-! ### Theorem for base-fee invariance -/

/-- C9: whenever a base fee is defined (the parent is post-London and the
chain is not pre-Bedrock Optimism) and the parent block used exactly its gas
target (gas limit divided by the effective elasticity multiplier),
`CalcBaseFee` returns the parent's base fee unchanged.  The hypotheses
`effectiveElasticity ≠ 0` and (under Holocene) `effectiveDenominator ≠ 0`
exclude the configurations on which the Go code panics before comparing. -/
theorem CalcBaseFee_at_target (cfg : BaseFeeConfig) (parent : HeaderM) (time : ℕ)
    (hpb : cfg.isOptimismPreBedrock parent.number = false)
    (hl : cfg.isLondon parent.number = true)
    (hel : effectiveElasticity cfg parent ≠ 0)
    (hden : ¬ (cfg.isOptimism ∧ cfg.isHolocene parent.time ∧
      effectiveDenominator cfg parent time = 0))
    (htarget : parent.gasUsed = parent.gasLimit / effectiveElasticity cfg parent) :
    CalcBaseFee cfg parent time = some parent.baseFee := by
  unfold CalcBaseFee
  unfold effectiveElasticity effectiveDenominator at *
  by_cases hoc : cfg.isOptimism ∧ cfg.isHolocene parent.time = true
  · simp only [hpb, hl, hoc, if_pos, if_neg, Bool.false_eq_true, not_false_eq_true,
      if_true] at *
    have h1 : ¬ ((decodeHoloceneExtraData parent.extra).1 = 0) := by
      intro h0
      exact hden ⟨hoc.1, hoc.2, by simp [hoc] at *; exact h0⟩
    simp only [if_pos hoc] at hel htarget ⊢
    simp [h1, hel, htarget, hoc]
  · simp only [if_neg hoc] at hel htarget ⊢
    have hno : ¬ (cfg.isOptimism = true ∧ cfg.isHolocene parent.time = true ∧
        getBaseFeeChangeDenominator cfg parent.number time = 0) := by
      intro h
      exact hoc ⟨h.1, h.2.1⟩
    simp [hpb, hl, hoc, hel, htarget, hno]

/-- Witness for C9 at a concrete configuration: plain Ethereum config with
elasticity 2, denominator 8, parent at exactly its gas target. -/
theorem CalcBaseFee_at_target_witness :
    CalcBaseFee
      { isOptimismPreBedrock := fun _ => false, isLondon := fun _ => true,
        elasticityMultiplier := 2, isOptimism := false,
        isHolocene := fun _ => false, borIsDelhi := fun _ => false,
        baseFeeChangeDenomAt := fun _ => 8 }
      { number := 100, time := 0, gasLimit := 30000000, gasUsed := 15000000,
        baseFee := 1000000000, extra := [] } 12 = some 1000000000 := by
  exact CalcBaseFee_at_target _ _ 12 rfl rfl (by decide)
    (by intro h; exact absurd h.1 (by decide)) (by decide)

/-! ## Versioned domain storage (`erigon-lib/state/domain.go`)

The mdbx tables are modelled as functions: the dup-sorted "keys" table maps a
key to the set of inverted steps present for it (`SeekBothRange` returns the
smallest duplicate that is `≥` the sought value, which is exactly how mdbx
resolves a dup-sort range seek on the 8-byte big-endian encodings), and the
"values" table maps `key ++ invertedStep` to a value.  Go `nil` byte slices
and empty slices are identified (the source only ever tests `len(v) == 0`).
The B-tree index of an immutable value file is modelled as an exact-lookup
function (`Seek` + `bytes.Equal(cur.Key(), key)`), with an `Empty` reader
represented by a lookup that always misses. -/

/-- Inversion `^(txNum / aggregationStep)` of a `uint64` step. -/
def invStep64 (x : ℕ) : ℕ := (U64 - 1) - x % U64

/-- One immutable value file (`filesItem` + its B-tree index) as seen by reads. -/
structure ValueFile where
  startTxNum : ℕ
  endTxNum : ℕ
  look : Bytes → Option Bytes

/-- One inverted-index (history) file range (`dt.ht.iit.files` item). -/
structure FileRange where
  startTxNum : ℕ
  endTxNum : ℕ

/-- Read-only domain context (`DomainRoTx`) together with the underlying
db tables and the history collaborators `HistoryRoTx.GetNoState` /
`getNoStateFromDB` (their code is outside the embedded sources; they are
the "history record for this key" lookups in files resp. recent db). -/
structure DomainRoTxM where
  aggregationStep : ℕ
  keysTable : Bytes → List ℕ
  valsTable : Bytes → ℕ → Option Bytes
  files : List ValueFile
  iitFiles : List FileRange
  getNoState : Bytes → ℕ → Option Bytes
  getNoStateFromDB : Bytes → ℕ → Option Bytes

/-- `SeekBothRange` on a dup-sorted table: the smallest duplicate `≥ target`. -/
def seekBothRange : List ℕ → ℕ → Option ℕ
  | [], _ => none
  | x :: xs, t =>
    match seekBothRange xs t with
    | none => if t ≤ x then some x else none
    | some y => if t ≤ x then some (min x y) else some y

/-- Embedding of the loop of `DomainRoTx.readFromFiles`, which walks the
files newest-first, stops as soon as a file's range ends before `fromTxNum`,
and returns the first exact hit. -/
def readFromFilesGo (key : Bytes) (fromTxNum : ℕ) : List ValueFile → Bytes × Bool
  | [] => ([], false)
  | f :: rest =>
    if f.endTxNum < fromTxNum then ([], false)
    else
      match f.look key with
      | some v => (v, true)
      | none => readFromFilesGo key fromTxNum rest

/-- Embedding of `DomainRoTx.readFromFiles` (iteration from the last file
down to the first). -/
def readFromFiles (dt : DomainRoTxM) (key : Bytes) (fromTxNum : ℕ) : Bytes × Bool :=
  readFromFilesGo key fromTxNum dt.files.reverse

/-- Embedding of `DomainRoTx.get`: seek the keys table for the smallest
recorded inverted step `≥ ^(fromTxNum/aggregationStep)`; on a hit read the
values table (a missing values-table row surfaces as Go `nil` with
`found = true`, exactly as `GetOne` does); on a miss fall through to the
immutable files. -/
def dtGet (dt : DomainRoTxM) (key : Bytes) (fromTxNum : ℕ) : Bytes × Bool :=
  let inv := invStep64 (fromTxNum / dt.aggregationStep)
  match seekBothRange (dt.keysTable key) inv with
  | none => readFromFiles dt key fromTxNum
  | some s => ((dt.valsTable key s).getD [], true)

/-- The `topState` scan of `historyBeforeTxNum`: the first inverted-index
file whose `endTxNum` is not `< txNum`. -/
def findTopState (txNum : ℕ) : List FileRange → Option FileRange
  | [] => none
  | f :: rest => if f.endTxNum < txNum then findTopState txNum rest else some f

/-- The value-file scan of the `anyItem` branch of `historyBeforeTxNum`:
walk `dt.files` newest-first, skipping files that start after
`topState.startTxNum`, and return the first exact hit (Go `nil`, i.e. `[]`,
when no file holds the key). -/
def scanValueFiles (key : Bytes) (topStart : ℕ) : List ValueFile → Bytes
  | [] => []
  | f :: rest =>
    if topStart < f.startTxNum then scanValueFiles key topStart rest
    else
      match f.look key with
      | some v => v
      | none => scanValueFiles key topStart rest

/-- Embedding of `DomainRoTx.historyBeforeTxNum`.  The boolean result is the
"found in history" flag; `roTx` says whether a database transaction was
supplied (the source errors on `nil`). -/
def historyBeforeTxNum (dt : DomainRoTxM) (key : Bytes) (txNum : ℕ) (roTx : Bool) :
    Except String (Bytes × Bool) :=
  match dt.getNoState key txNum with
  | some v => .ok (v, true)
  | none =>
    match findTopState txNum dt.iitFiles with
    | some top => .ok (scanValueFiles key top.startTxNum dt.files.reverse, true)
    | none =>
      if roTx then
        match dt.getNoStateFromDB key txNum with
        | some v => .ok (v, true)
        | none => .ok ([], false)
      else .error "roTx is nil"

/-- Embedding of `DomainRoTx.GetBeforeTxNum`: a found history record that is
empty (key-creation marker) is reported as `nil`; absent any history answer
the Domain's value as of `txNum - 1` is returned. -/
def GetBeforeTxNum (dt : DomainRoTxM) (key : Bytes) (txNum : ℕ) (roTx : Bool) :
    Except String Bytes :=
  match historyBeforeTxNum dt key txNum roTx with
  | .error e => .error e
  | .ok (v, true) => .ok (if v.length = 0 then [] else v)
  | .ok (_, false) => .ok (dtGet dt key (txNum - 1)).1

/-! ### Domain writer (`Domain.Put`) -/

/-- Writer-side state of a `Domain`: the current transaction number, the two
mutable tables, the immutable files of the default read context, and the log
of previous values forwarded to `History.AddPrevValue`. -/
structure DomainW where
  aggregationStep : ℕ
  txNum : ℕ
  keysTable : Bytes → List ℕ
  valsTable : Bytes → ℕ → Option Bytes
  files : List ValueFile
  history : List (Bytes × Bytes)

/-- The read context (`d.defaultDc`) over the writer's current tables. -/
def DomainW.asRo (w : DomainW) : DomainRoTxM :=
  { aggregationStep := w.aggregationStep, keysTable := w.keysTable,
    valsTable := w.valsTable, files := w.files, iitFiles := [],
    getNoState := fun _ _ => none, getNoStateFromDB := fun _ _ => none }

/-- Embedding of `Domain.Put(key1, key2, val)` with `key = key1 ++ key2`:
read the current value; if it equals `val`, return with no writes at all;
otherwise forward the old value to the History layer, record the current
inverted step in the keys table and write the value keyed by
`key ++ invertedStep`. -/
def domainPut (w : DomainW) (key val : Bytes) : DomainW :=
  let original := (dtGet w.asRo key w.txNum).1
  if original = val then w
  else
    let inv := invStep64 (w.txNum / w.aggregationStep)
    { w with
      history := w.history ++ [(key, original)],
      keysTable := fun k => if k = key then inv :: w.keysTable k else w.keysTable k,
      valsTable := fun k s => if k = key ∧ s = inv then some val else w.valsTable k s }

/-! ### Lemmas about seeks -/

theorem seekBothRange_le {l : List ℕ} {t y : ℕ} (h : seekBothRange l t = some y) : t ≤ y := by
  induction l generalizing y with
  | nil => simp [seekBothRange] at h
  | cons x xs ih =>
    simp only [seekBothRange] at h
    cases hrec : seekBothRange xs t with
    | none =>
      rw [hrec] at h
      by_cases hx : t ≤ x
      · simp [hx] at h; omega
      · simp [hx] at h
    | some z =>
      rw [hrec] at h
      have hz := ih hrec
      by_cases hx : t ≤ x
      · simp [hx] at h
        omega
      · simp [hx] at h
        omega

theorem seekBothRange_cons_self (l : List ℕ) (t : ℕ) :
    seekBothRange (t :: l) t = some t := by
  simp only [seekBothRange]
  cases hrec : seekBothRange l t with
  | none => simp
  | some y =>
    have := seekBothRange_le hrec
    simp [Nat.min_eq_left this]

theorem findTopState_none {txNum : ℕ} {l : List FileRange}
    (h : ∀ f ∈ l, f.endTxNum < txNum) : findTopState txNum l = none := by
  induction l with
  | nil => rfl
  | cons f rest ih =>
    simp only [findTopState]
    rw [if_pos (h f (by simp))]
    exact ih (fun g hg => h g (by simp [hg]))

theorem dtGet_after_put (w : DomainW) (key val : Bytes)
    (h : ¬ (dtGet w.asRo key w.txNum).1 = val) :
    dtGet (domainPut w key val).asRo key w.txNum = (val, true) := by
  unfold domainPut
  simp only [if_neg h]
  unfold dtGet DomainW.asRo
  simp [seekBothRange_cons_self]

theorem domainPut_of_eq (w : DomainW) (key val : Bytes)
    (h : (dtGet w.asRo key w.txNum).1 = val) : domainPut w key val = w := by
  unfold domainPut
  simp [h]

theorem domainPut_txNum (w : DomainW) (key val : Bytes) :
    (domainPut w key val).txNum = w.txNum := by
  by_cases h : (dtGet w.asRo key w.txNum).1 = val
  · rw [domainPut_of_eq w key val h]
  · unfold domainPut
    simp [h]

/-- C10: `Domain.Put` with a value equal to the key's current value is a
complete no-op — the writer state (history log, keys table, values table)
is exactly unchanged — and consequently `Put` is idempotent: calling it twice
with the same key and value equals calling it once, and rewriting an
unchanged value leaves no history entry. -/
theorem domainPut_noop_idempotent (w : DomainW) (key val : Bytes) :
    ((dtGet w.asRo key w.txNum).1 = val → domainPut w key val = w) ∧
    domainPut (domainPut w key val) key val = domainPut w key val := by
  refine ⟨domainPut_of_eq w key val, ?_⟩
  by_cases h : (dtGet w.asRo key w.txNum).1 = val
  · rw [domainPut_of_eq w key val h]
    exact domainPut_of_eq w key val h
  · refine domainPut_of_eq _ key val ?_
    rw [domainPut_txNum, dtGet_after_put w key val h]

/-- Witness state for the `Domain.Put` theorems. -/
def domainPutW0 : DomainW :=
  { aggregationStep := 16, txNum := 5, keysTable := fun _ => [],
    valsTable := fun _ _ => none, files := [], history := [] }

/-- Witness for C10 at a concrete state: re-putting the current (empty)
value is the identity, and a double `Put` of `[7]` equals a single one. -/
theorem domainPut_noop_idempotent_witness :
    domainPut domainPutW0 [1] [] = domainPutW0 ∧
    domainPut (domainPut domainPutW0 [1] [7]) [1] [7]
      = domainPut domainPutW0 [1] [7] :=
  ⟨(domainPut_noop_idempotent domainPutW0 [1] []).1 rfl,
   (domainPut_noop_idempotent domainPutW0 [1] [7]).2⟩

/-- C5 (amended): how `GetBeforeTxNum` actually dispatches.  A history record
found by `GetNoState` is returned (empty record — the key-creation marker —
as `nil`); the fall-through to the Domain's value at `txNum - 1` happens only
when additionally no history-index file's range reaches `txNum` and the
recent-history db has no record; and when such a file exists but holds no
record for the key, the value is instead read from the domain's value files
restricted to those starting no later than that file, still flagged as found. -/
theorem GetBeforeTxNum_dispatch (dt : DomainRoTxM) (key : Bytes) (txNum : ℕ) :
    (∀ v, dt.getNoState key txNum = some v →
      GetBeforeTxNum dt key txNum true = .ok (if v.length = 0 then [] else v)) ∧
    (dt.getNoState key txNum = none →
      (∀ f ∈ dt.iitFiles, f.endTxNum < txNum) →
      dt.getNoStateFromDB key txNum = none →
      GetBeforeTxNum dt key txNum true = .ok (dtGet dt key (txNum - 1)).1) ∧
    (dt.getNoState key txNum = none →
      ∀ top, findTopState txNum dt.iitFiles = some top →
      GetBeforeTxNum dt key txNum true =
        .ok (if (scanValueFiles key top.startTxNum dt.files.reverse).length = 0 then []
             else scanValueFiles key top.startTxNum dt.files.reverse)) := by
  refine ⟨?_, ?_, ?_⟩
  · intro v hv
    unfold GetBeforeTxNum historyBeforeTxNum
    rw [hv]
  · intro h1 h2 h3
    unfold GetBeforeTxNum historyBeforeTxNum
    rw [h1, findTopState_none h2]
    simp [h3]
  · intro h1 top htop
    unfold GetBeforeTxNum historyBeforeTxNum
    rw [h1, htop]

/-- A concrete read context on which the claimed fall-through fails: the key
has no history record anywhere, but a history-index file covers `txNum`, so
the query answers from (empty) value files instead of asking the Domain. -/
def c5Ctx : DomainRoTxM :=
  { aggregationStep := 16,
    keysTable := fun k => if k = [1] then [U64 - 1] else [],
    valsTable := fun k s => if k = [1] ∧ s = U64 - 1 then some [42] else none,
    files := [],
    iitFiles := [{ startTxNum := 0, endTxNum := 16 }],
    getNoState := fun _ _ => none,
    getNoStateFromDB := fun _ _ => none }

/-- C5 (counterexample): at `c5Ctx` there is no history record for key `[1]`
at or after `txNum = 5` (the history lookups return not-found everywhere),
the Domain's current value as of `txNum - 1 = 4` is `[42]`, yet
`GetBeforeTxNum` returns `nil` because a history-index file covers `txNum`. -/
theorem GetBeforeTxNum_coverage_cex :
    c5Ctx.getNoState [1] 5 = none ∧
    c5Ctx.getNoStateFromDB [1] 5 = none ∧
    (dtGet c5Ctx [1] 4).1 = [42] ∧
    GetBeforeTxNum c5Ctx [1] 5 true = .ok [] ∧
    GetBeforeTxNum c5Ctx [1] 5 true ≠ .ok ((dtGet c5Ctx [1] 4).1) := by
  have h4 : (dtGet c5Ctx [1] 4).1 = [42] := by decide
  have h5 : GetBeforeTxNum c5Ctx [1] 5 true = .ok [] := rfl
  refine ⟨rfl, rfl, h4, h5, ?_⟩
  rw [h4, h5]
  simp

/-- Witness for the amended C5 theorem: a context with no history files at
all falls through to the Domain value at `txNum - 1`. -/
def c5CtxW : DomainRoTxM :=
  { aggregationStep := 16,
    keysTable := fun k => if k = [1] then [U64 - 1] else [],
    valsTable := fun k s => if k = [1] ∧ s = U64 - 1 then some [42] else none,
    files := [],
    iitFiles := [],
    getNoState := fun _ _ => none,
    getNoStateFromDB := fun _ _ => none }

theorem GetBeforeTxNum_dispatch_witness :
    GetBeforeTxNum c5CtxW [1] 5 true = .ok [42] := by
  have h := (GetBeforeTxNum_dispatch c5CtxW [1] 5).2.1 rfl
    (by intro f hf; cases hf) rfl
  rw [h]
  rfl

/-! ### File reference counting (`Domain.BeginFilesRo`, `DomainRoTx.Close`)

`filesItem` lifecycle state: `refcount` is the atomic counter, `removed`
records that `closeFilesAndRemove` ran.  Files are identified by indices into
an ambient item map; the `visible` list is the atomically published
visible-files snapshot that `BeginFilesRo` captures. -/

structure FilesItem where
  frozen : Bool
  canDelete : Bool
  refcount : ℤ
  removed : Bool

structure DomainFiles where
  items : ℕ → FilesItem
  visible : List ℕ

/-- Occurrence count of an id in a handle. -/
def countOcc (id : ℕ) : List ℕ → ℕ
  | [] => 0
  | x :: rest => (if x = id then 1 else 0) + countOcc id rest

/-- `item.src.refcount.Add(1)` on one file. -/
def bumpRef (items : ℕ → FilesItem) (id : ℕ) : ℕ → FilesItem :=
  fun x => if x = id then { items id with refcount := (items id).refcount + 1 } else items x

/-- The loop of `BeginFilesRo`: bump every non-frozen captured file. -/
def incVisible (items : ℕ → FilesItem) : List ℕ → (ℕ → FilesItem)
  | [] => items
  | id :: rest => incVisible (if (items id).frozen then items else bumpRef items id) rest

/-- Embedding of `Domain.BeginFilesRo`: capture the visible-files snapshot,
increment every non-frozen captured file's refcount, and hand the captured
list to the new read transaction. -/
def beginFilesRo (d : DomainFiles) : DomainFiles × List ℕ :=
  ({ d with items := incVisible d.items d.visible }, d.visible)

/-- One `refCnt := refcount.Add(-1)` step of `DomainRoTx.Close` together with
the `refCnt == 0 && canDelete.Load()` test guarding `closeFilesAndRemove`. -/
def decStep (it : FilesItem) : FilesItem :=
  let rc := it.refcount - 1
  { it with refcount := rc, removed := it.removed || (decide (rc = 0) && it.canDelete) }

def decRef (items : ℕ → FilesItem) (id : ℕ) : ℕ → FilesItem :=
  fun x => if x = id then decStep (items id) else items x

/-- The loop of `DomainRoTx.Close`: frozen files are skipped, every other
file of the transaction's handle is decremented (and possibly removed). -/
def decHandle (items : ℕ → FilesItem) : List ℕ → (ℕ → FilesItem)
  | [] => items
  | id :: rest => decHandle (if (items id).frozen then items else decRef items id) rest

/-- Embedding of `DomainRoTx.Close` restricted to the domain's own files. -/
def closeFilesRo (d : DomainFiles) (handle : List ℕ) : DomainFiles :=
  { d with items := decHandle d.items handle }

/-- `decStep` iterated. -/
def decIter : FilesItem → ℕ → FilesItem
  | it, 0 => it
  | it, k + 1 => decIter (decStep it) k

/-- Scheduler events: open a read transaction, or close the i-th open one. -/
inductive DomainEvent where
  | beginRo : DomainEvent
  | closeRo : ℕ → DomainEvent

structure DomainConfig where
  dom : DomainFiles
  openHandles : List (List ℕ)

/-- One step of the begin/close protocol; closing a non-existent handle is a
no-op (each real `DomainRoTx` is closed at most once). -/
def stepDomain (c : DomainConfig) : DomainEvent → DomainConfig
  | .beginRo =>
    { dom := (beginFilesRo c.dom).1, openHandles := (beginFilesRo c.dom).2 :: c.openHandles }
  | .closeRo i =>
    match c.openHandles.get? i with
    | some h => { dom := closeFilesRo c.dom h, openHandles := c.openHandles.eraseIdx i }
    | none => c

def runDomain : DomainConfig → List DomainEvent → DomainConfig
  | c, [] => c
  | c, e :: es => runDomain (stepDomain c e) es

/-- A fresh file item: refcount zero, not removed. -/
def initItem (frozenF canDelF : ℕ → Bool) (id : ℕ) : FilesItem :=
  { frozen := frozenF id, canDelete := canDelF id, refcount := 0, removed := false }

/-- Initial state: given frozen/canDelete marks and a visible snapshot, all
refcounts are zero and nothing has been removed; no transaction is open. -/
def initDomain (frozenF canDelF : ℕ → Bool) (visible : List ℕ) : DomainConfig :=
  { dom := { items := initItem frozenF canDelF, visible := visible },
    openHandles := [] }

/-- Total number of references to a file held by the open transactions. -/
def handleCount (id : ℕ) : List (List ℕ) → ℕ
  | [] => 0
  | h :: rest => countOcc id h + handleCount id rest

theorem incVisible_get (l : List ℕ) (items : ℕ → FilesItem) (id : ℕ) :
    (incVisible items l id).refcount
        = (items id).refcount + (if (items id).frozen then 0 else (countOcc id l : ℤ))
    ∧ (incVisible items l id).frozen = (items id).frozen
    ∧ (incVisible items l id).canDelete = (items id).canDelete
    ∧ (incVisible items l id).removed = (items id).removed := by
  induction l generalizing items with
  | nil => simp [incVisible, countOcc]
  | cons a rest ih =>
    simp only [incVisible]
    by_cases haf : (items a).frozen = true
    · rw [if_pos haf]
      obtain ⟨h1, h2, h3, h4⟩ := ih items
      refine ⟨?_, h2, h3, h4⟩
      rw [h1]
      by_cases hai : a = id
      · subst hai
        rw [haf]
        simp
      · have : countOcc id (a :: rest) = countOcc id rest := by simp [countOcc, hai]
        rw [this]
    · rw [if_neg haf]
      obtain ⟨h1, h2, h3, h4⟩ := ih (bumpRef items a)
      by_cases hai : a = id
      · subst hai
        have hb : bumpRef items a a = { items a with refcount := (items a).refcount + 1 } := by
          simp [bumpRef]
        rw [Bool.not_eq_true] at haf
        refine ⟨?_, ?_, ?_, ?_⟩
        · rw [h1, hb]
          simp only [haf, Bool.false_eq_true, if_false, countOcc, if_pos rfl]
          push_cast
          ring
        · rw [h2, hb]
        · rw [h3, hb]
        · rw [h4, hb]
      · have hb : bumpRef items a id = items id := by
          simp [bumpRef, Ne.symm hai]
        have hc : countOcc id (a :: rest) = countOcc id rest := by simp [countOcc, hai]
        refine ⟨?_, ?_, ?_, ?_⟩
        · rw [h1, hb, hc]
        · rw [h2, hb]
        · rw [h3, hb]
        · rw [h4, hb]

theorem decStep_frozen (it : FilesItem) : (decStep it).frozen = it.frozen := rfl

theorem decIter_frozen (k : ℕ) (it : FilesItem) : (decIter it k).frozen = it.frozen := by
  induction k generalizing it with
  | zero => rfl
  | succ n ih => rw [decIter, ih, decStep_frozen]

theorem decIter_canDelete (k : ℕ) (it : FilesItem) :
    (decIter it k).canDelete = it.canDelete := by
  induction k generalizing it with
  | zero => rfl
  | succ n ih =>
    rw [decIter, ih]
    rfl

theorem decIter_refcount (k : ℕ) (it : FilesItem) :
    (decIter it k).refcount = it.refcount - k := by
  induction k generalizing it with
  | zero => simp [decIter]
  | succ n ih =>
    rw [decIter, ih]
    show it.refcount - 1 - (n : ℤ) = it.refcount - ((n : ℤ) + 1)
    omega

theorem decIter_removed_imp (k : ℕ) (it : FilesItem)
    (h : (decIter it k).removed = true) :
    it.removed = true ∨ it.canDelete = true := by
  induction k generalizing it with
  | zero => exact Or.inl h
  | succ n ih =>
    rcases ih (decStep it) h with h1 | h1
    · simp only [decStep, Bool.or_eq_true, Bool.and_eq_true] at h1
      rcases h1 with h1 | h1
      · exact Or.inl h1
      · exact Or.inr h1.2
    · exact Or.inr h1

theorem decHandle_get (l : List ℕ) (items : ℕ → FilesItem) (id : ℕ) :
    decHandle items l id =
      decIter (items id) (if (items id).frozen then 0 else countOcc id l) := by
  induction l generalizing items with
  | nil =>
    simp only [decHandle, countOcc]
    cases h : (items id).frozen <;> simp [decIter]
  | cons a rest ih =>
    simp only [decHandle]
    by_cases haf : (items a).frozen = true
    · rw [if_pos haf, ih items]
      by_cases hai : a = id
      · subst hai
        rw [haf]
        simp
      · have hc : countOcc id (a :: rest) = countOcc id rest := by simp [countOcc, hai]
        rw [hc]
    · rw [if_neg haf, ih (decRef items a)]
      by_cases hai : a = id
      · subst hai
        have hdid : decRef items a a = decStep (items a) := by simp [decRef]
        rw [Bool.not_eq_true] at haf
        have hc : countOcc a (a :: rest) = countOcc a rest + 1 := by
          simp [countOcc, Nat.add_comm]
        rw [hdid, decStep_frozen, haf, hc]
        simp only [Bool.false_eq_true, if_false]
        rfl
      · have hdid : decRef items a id = items id := by simp [decRef, Ne.symm hai]
        have hc : countOcc id (a :: rest) = countOcc id rest := by simp [countOcc, hai]
        rw [hdid, hc]

theorem handleCount_erase (id : ℕ) (hs : List (List ℕ)) (i : ℕ) (h : List ℕ)
    (hget : hs.get? i = some h) :
    handleCount id hs = countOcc id h + handleCount id (hs.eraseIdx i) := by
  induction hs generalizing i with
  | nil => simp at hget
  | cons h0 rest ih =>
    cases i with
    | zero =>
      simp only [List.get?] at hget
      cases hget
      simp [handleCount, List.eraseIdx]
    | succ n =>
      simp only [List.get?] at hget
      have := ih n hget
      simp only [handleCount, List.eraseIdx]
      omega

/-- The protocol invariant: every non-frozen file's refcount equals the
number of references held by open transactions, and anything removed was
marked deletable. -/
def domInv (c : DomainConfig) : Prop :=
  ∀ id, (¬ (c.dom.items id).frozen = true →
           (c.dom.items id).refcount = (handleCount id c.openHandles : ℤ))
      ∧ ((c.dom.items id).removed = true → (c.dom.items id).canDelete = true)

theorem stepDomain_inv (c : DomainConfig) (e : DomainEvent)
    (hc : domInv c) : domInv (stepDomain c e) := by
  cases e with
  | beginRo =>
    intro id
    simp only [stepDomain, beginFilesRo]
    obtain ⟨h1, h2, h3, h4⟩ := incVisible_get c.dom.visible c.dom.items id
    constructor
    · intro hfz
      rw [h2] at hfz
      rw [h1, if_neg hfz]
      have hrc := (hc id).1 hfz
      simp only [handleCount]
      push_cast
      omega
    · intro hrm
      rw [h4] at hrm
      rw [h3]
      exact (hc id).2 hrm
  | closeRo i =>
    simp only [stepDomain]
    cases hget : c.openHandles.get? i with
    | none => exact hc
    | some h =>
      intro id
      simp only [closeFilesRo]
      rw [decHandle_get]
      constructor
      · intro hfz
        rw [decIter_frozen] at hfz
        rw [decIter_refcount, if_neg hfz]
        have h1 := (hc id).1 hfz
        have h2 := handleCount_erase id c.openHandles i h hget
        push_cast at *
        omega
      · intro hrm
        rw [decIter_canDelete]
        rcases decIter_removed_imp _ _ hrm with h1 | h1
        · exact (hc id).2 h1
        · exact h1

theorem runDomain_inv (tr : List DomainEvent) (c : DomainConfig)
    (hc : domInv c) : domInv (runDomain c tr) := by
  induction tr generalizing c with
  | nil => exact hc
  | cons e es ih => exact ih _ (stepDomain_inv c e hc)

theorem initDomain_inv (fz cd : ℕ → Bool) (vis : List ℕ) :
    domInv (initDomain fz cd vis) := by
  intro id
  constructor
  · intro _
    simp [initDomain, initItem, handleCount]
  · intro h
    simp [initDomain, initItem] at h

/-- C6: reference-counted deletion of non-frozen immutable files.  Along any
begin/close trace from an initial state, every non-frozen file's refcount
equals the number of references held by open read transactions (hence it is
never negative), and a removed file was marked `canDelete`.  Moreover
`BeginFilesRo` hands out exactly the captured visible snapshot and bumps each
non-frozen captured file once per occurrence, and `Close` decrements each
non-frozen handled file once per occurrence, running the physical deletion
exactly when the decremented count is `0` and `canDelete` is set. -/
theorem filesRefcountSafety (fz cd : ℕ → Bool) (vis : List ℕ)
    (tr : List DomainEvent) (c : DomainConfig)
    (hc : c = runDomain (initDomain fz cd vis) tr) :
    (∀ id, ¬ (c.dom.items id).frozen = true →
       (c.dom.items id).refcount = (handleCount id c.openHandles : ℤ) ∧
       0 ≤ (c.dom.items id).refcount) ∧
    (∀ id, (c.dom.items id).removed = true → (c.dom.items id).canDelete = true) ∧
    (∀ d : DomainFiles, (beginFilesRo d).2 = d.visible ∧
       ∀ id, ¬ (d.items id).frozen = true →
         ((beginFilesRo d).1.items id).refcount
           = (d.items id).refcount + (countOcc id d.visible : ℤ)) ∧
    (∀ d : DomainFiles, ∀ h : List ℕ, ∀ id,
       (¬ (d.items id).frozen = true →
         ((closeFilesRo d h).items id).refcount
           = (d.items id).refcount - (countOcc id h : ℤ)) ∧
       (¬ (d.items id).frozen = true → countOcc id h = 1 →
         ((closeFilesRo d h).items id).removed
           = ((d.items id).removed ||
              (decide ((d.items id).refcount - 1 = 0) && (d.items id).canDelete)))) := by
  subst hc
  have hinv := runDomain_inv tr _ (initDomain_inv fz cd vis)
  refine ⟨?_, fun id => (hinv id).2, ?_, ?_⟩
  · intro id hfz
    have h1 := (hinv id).1 hfz
    exact ⟨h1, by rw [h1]; positivity⟩
  · intro d
    refine ⟨rfl, ?_⟩
    intro id hfz
    show (incVisible d.items d.visible id).refcount = _
    rw [(incVisible_get d.visible d.items id).1, if_neg hfz]
  · intro d h id
    constructor
    · intro hfz
      show (decHandle d.items h id).refcount = _
      rw [decHandle_get, if_neg hfz, decIter_refcount]
    · intro hfz hone
      show (decHandle d.items h id).removed = _
      rw [decHandle_get, if_neg hfz, hone]
      rfl

/-- Witness for C6 on a concrete trace: one file, one begin, one close; the
final refcount is `0` (non-negative), the handle equalled the snapshot, and
the close step removed the deletable file exactly at refcount `0`. -/
theorem filesRefcountSafety_witness :
    ((runDomain (initDomain (fun _ => false) (fun _ => true) [0])
        [DomainEvent.beginRo, DomainEvent.closeRo 0]).dom.items 0).refcount = 0 ∧
    0 ≤ ((runDomain (initDomain (fun _ => false) (fun _ => true) [0])
        [DomainEvent.beginRo, DomainEvent.closeRo 0]).dom.items 0).refcount ∧
    ((runDomain (initDomain (fun _ => false) (fun _ => true) [0])
        [DomainEvent.beginRo, DomainEvent.closeRo 0]).dom.items 0).removed = true := by
  have h := filesRefcountSafety (fun _ => false) (fun _ => true) [0]
    [DomainEvent.beginRo, DomainEvent.closeRo 0] _ rfl
  have h1 := (h.1 0 (by decide))
  refine ⟨?_, h1.2, by decide⟩
  have := h1.1
  rw [this]
  decide

/-! ## Transaction decoding (`TxParseContext.ParseTransaction`, `parseSignature`)

The erigon-lib `rlp` parsing helpers are collaborators outside the embedded
sources; they implement standard RLP item parsing and are modelled from the
spec below.  Keccak-256, secp256k1 recovery, the signature range check and
the FastLZ size estimate are modelled as oracles carried by the parse
context: no verified property depends on their values, only on whether and
where they are invoked. -/

/-- Big-endian integer from `len` bytes at `start`. -/
def beUint (payload : Bytes) (start len : ℕ) : ℕ :=
  ((payload.drop start).take len).foldl (fun acc b => acc * 256 + b) 0

/-- The sub-slice `payload[pos : pos+len]`. -/
def sliceOf (payload : Bytes) (pos len : ℕ) : Bytes := (payload.drop pos).take len

/-- Go `copy(dst, src)`: overwrite the first `min |dst| |src|` bytes of `dst`. -/
def copyInto (dst src : Bytes) : Bytes := src.take dst.length ++ dst.drop src.length

/-- Count of non-zero bytes. -/
def countNonZero (bs : Bytes) : ℕ := (bs.filter (fun b => b ≠ 0)).length

/-- Modelled from the spec: `rlp.Prefix` — the RLP item header at `pos`,
returning `(dataPos, dataLen, isList)` with bounds and canonicality checks. -/
def rlpHead (payload : Bytes) (pos : ℕ) : Except String (ℕ × ℕ × Bool) :=
  if pos < payload.length then
    let b := payload.getD pos 0
    if b < 0x80 then .ok (pos, 1, false)
    else if b < 0xB8 then
      let l := b - 0x80
      if pos + 1 + l ≤ payload.length then .ok (pos + 1, l, false)
      else .error "string exceeds payload"
    else if b < 0xC0 then
      let ll := b - 0xB7
      if pos + 1 + ll ≤ payload.length then
        let l := beUint payload (pos + 1) ll
        if 56 ≤ l ∧ payload.getD (pos + 1) 0 ≠ 0 ∧ pos + 1 + ll + l ≤ payload.length then
          .ok (pos + 1 + ll, l, false)
        else .error "non-canonical or oversize string length"
      else .error "string length exceeds payload"
    else if b < 0xF8 then
      let l := b - 0xC0
      if pos + 1 + l ≤ payload.length then .ok (pos + 1, l, true)
      else .error "list exceeds payload"
    else
      let ll := b - 0xF7
      if pos + 1 + ll ≤ payload.length then
        let l := beUint payload (pos + 1) ll
        if 56 ≤ l ∧ payload.getD (pos + 1) 0 ≠ 0 ∧ pos + 1 + ll + l ≤ payload.length then
          .ok (pos + 1 + ll, l, true)
        else .error "non-canonical or oversize list length"
      else .error "list length exceeds payload"
  else .error "position beyond payload"

/-- Modelled from the spec: `rlp.List`. -/
def rlpList (payload : Bytes) (pos : ℕ) : Except String (ℕ × ℕ) :=
  match rlpHead payload pos with
  | .error e => .error e
  | .ok (dp, dl, isList) => if isList then .ok (dp, dl) else .error "expected list"

/-- Modelled from the spec: `rlp.String`. -/
def rlpString (payload : Bytes) (pos : ℕ) : Except String (ℕ × ℕ) :=
  match rlpHead payload pos with
  | .error e => .error e
  | .ok (dp, dl, isList) => if isList then .error "expected string" else .ok (dp, dl)

/-- Modelled from the spec: `rlp.SkipString` — returns the position after the
string and its length. -/
def rlpSkipString (payload : Bytes) (pos : ℕ) : Except String (ℕ × ℕ) :=
  match rlpString payload pos with
  | .error e => .error e
  | .ok (dp, dl) => .ok (dp + dl, dl)

/-- Modelled from the spec: `rlp.StringOfLen` — a string of exactly the
expected length; returns its data position. -/
def rlpStringOfLen (payload : Bytes) (pos expected : ℕ) : Except String ℕ :=
  match rlpString payload pos with
  | .error e => .error e
  | .ok (dp, dl) => if dl = expected then .ok dp else .error "unexpected string length"

/-- Modelled from the spec: canonical RLP unsigned integer of at most `width`
bytes; returns the position after the item and the value. -/
def rlpUIntOfWidth (payload : Bytes) (pos width : ℕ) : Except String (ℕ × ℕ) :=
  match rlpString payload pos with
  | .error e => .error e
  | .ok (dp, dl) =>
    if width < dl then .error "integer too long"
    else if 0 < dl ∧ payload.getD dp 0 = 0 then .error "leading zero in integer"
    else .ok (dp + dl, beUint payload dp dl)

/-- Modelled from the spec: `rlp.U64`. -/
def rlpU64 (payload : Bytes) (pos : ℕ) : Except String (ℕ × ℕ) :=
  rlpUIntOfWidth payload pos 8

/-- Modelled from the spec: `rlp.U256`. -/
def rlpU256 (payload : Bytes) (pos : ℕ) : Except String (ℕ × ℕ) :=
  rlpUIntOfWidth payload pos 32

/-- Transaction type discriminants of the decoder. -/
def LegacyTxType : ℕ := 0

def AccessListTxType : ℕ := 1

def DynamicFeeTxType : ℕ := 2

def BlobTxType : ℕ := 3

def SetCodeTxType : ℕ := 4

def DepositTxType : ℕ := 0x7e

/-- Parsed signature fields (`Signature`). -/
structure SigM where
  chainID : ℕ
  v : ℕ
  r : ℕ
  s : ℕ
deriving DecidableEq

/-- Embedding of `parseSignature(payload, pos, legacy, cfgChainId, sig)`:
parses V, analyses it (legacy replay-protection rules), then parses R and S;
returns the position after the signature, the y-parity byte and the signature.
On the non-legacy path the Go function leaves `sig.ChainID` untouched; the
embedding returns `0` there and callers override it.  `cfgChainId = none`
models the `nil` pointer the authorization-list caller passes (dereferenced
only on the legacy path, where Go would crash — modelled as an error). -/
def parseSignature (payload : Bytes) (pos : ℕ) (legacy : Bool) (cfgChainId : Option ℕ) :
    Except String (ℕ × ℕ × SigM) :=
  match rlpU256 payload pos with
  | .error e => .error ("v: " ++ e)
  | .ok (p1, v) =>
    let analysis : Except String (ℕ × ℕ) :=
      if legacy then
        if v = 27 ∨ v = 28 then
          match cfgChainId with
          | some cfg => .ok (cfg, v - 27)
          | none => .error "nil configured chain id"
        else if v < 35 then .error "EIP-155 implies V>=35"
        else
          let chainSub := v - 35
          let yParity := (chainSub % U64) % 2
          let chainID := chainSub / 2
          match cfgChainId with
          | some cfg =>
            if chainID ≠ cfg then .error "invalid chainID" else .ok (chainID, yParity)
          | none => .error "nil configured chain id"
      else
        if ¬ v < 256 then .error "v is too big"
        else .ok (0, (v % U64) % 256)
    match analysis with
    | .error e => .error e
    | .ok (chainID, yParity) =>
      match rlpU256 payload p1 with
      | .error e => .error ("r: " ++ e)
      | .ok (p2, r) =>
        match rlpU256 payload p2 with
        | .error e => .error ("s: " ++ e)
        | .ok (p3, s) =>
          .ok (p3, yParity, { chainID := chainID, v := v, r := r, s := s })

/-- `RollupCostData` (rollup byte-composition of a parsed transaction). -/
structure RollupCostDataM where
  zeroes : ℕ
  ones : ℕ
  fastLzSize : ℕ
deriving DecidableEq

/-- The fields of `TxSlot` populated by the decoder. -/
structure TxSlotM where
  rlp : Bytes := []
  value : ℕ := 0
  tip : ℕ := 0
  feeCap : ℕ := 0
  nonce : ℕ := 0
  dataLen : ℕ := 0
  dataNonZeroLen : ℕ := 0
  alAddrCount : ℕ := 0
  alStorCount : ℕ := 0
  gas : ℕ := 0
  idHash : Bytes := []
  creation : Bool := false
  typ : ℕ := 0
  size : ℕ := 0
  blobFeeCap : ℕ := 0
  blobHashes : List Bytes := []
  blobs : List Bytes := []
  commitments : List Bytes := []
  proofs : List Bytes := []
  authorizations : List SigM := []
  rollupCostData : RollupCostDataM := ⟨0, 0, 0⟩
deriving DecidableEq

/-- `TxParseContext` configuration plus the cryptographic collaborators:
`keccak` models Keccak-256 over the accumulated written bytes, `sigValid`
models `crypto.TransactionSignatureIsValid`, `recover` models
`secp256k1.RecoverPubkey` (sighash, 65-byte signature → 65-byte public key),
and `flz` models the `FlzCompressLen` estimate of the source (treated as an
opaque function here because no verified property depends on its value).
The `validateRlp`/`validateHash` hooks are taken to be absent (`nil`). -/
structure TxParseCtxM where
  cfgChainID : ℕ
  withSender : Bool := true
  allowPreEip2s : Bool := false
  chainIDRequired : Bool := false
  keccak : Bytes → Bytes
  sigValid : ℕ → ℕ → ℕ → Bool → Bool
  recover : Bytes → Bytes → Option Bytes
  flz : Bytes → ℕ

/-- Number of bits of a natural number (`uint256.BitLen`). -/
def bitLen (n : ℕ) : ℕ := if n = 0 then 0 else Nat.log2 n + 1

/-- Big-endian encoding of `n` into exactly `width` bytes. -/
def beBytesPad (n width : ℕ) : Bytes :=
  (List.range width).map (fun i => n / 256 ^ (width - 1 - i) % 256)

/-- The RLP list-length header bytes written before hashing the signing data
(`ctx.buf[0] = byte(sigHashLen) + 192`, or the long form `247 + beLen`). -/
def encodeListLenBytes (len : ℕ) : Bytes :=
  if len < 56 then [0xC0 + len]
  else
    let beLen := (bitLen len + 7) / 8
    (0xF7 + beLen) :: beBytesPad len beLen

/-- The conditional chain-id bytes appended to a legacy signing hash
(EIP-155): a bare byte for small ids, otherwise `128 + len` and the
big-endian id. -/
def chainIdEnc (cid : ℕ) : Bytes :=
  let bits := bitLen cid
  if bits ≤ 7 then [cid]
  else
    let cl := (bits + 7) / 8
    (128 + cl) :: beBytesPad cid cl

/-- The access-list storage-key loop (`for sKeyPos < storagePos+storageLen`);
positions strictly increase, so the payload length bounds the iterations and
the fuel never runs out on inputs the Go code terminates on. -/
def parseAlStorKeys (payload : Bytes) (storEnd : ℕ) :
    ℕ → ℕ → ℕ → Except String (ℕ × ℕ)
  | 0, _, _ => .error "fuel exhausted"
  | fuel + 1, sKeyPos, count =>
    if sKeyPos < storEnd then
      match rlpStringOfLen payload sKeyPos 32 with
      | .error e => .error ("tuple storage key len: " ++ e)
      | .ok dp => parseAlStorKeys payload storEnd fuel (dp + 32) (count + 1)
    else .ok (sKeyPos, count)

/-- The access-list tuple loop of `parseTransactionBody`. -/
def parseAlTuples (payload : Bytes) (alEnd : ℕ) :
    ℕ → ℕ → ℕ → ℕ → Except String (ℕ × ℕ × ℕ)
  | 0, _, _, _ => .error "fuel exhausted"
  | fuel + 1, tuplePos, addrCount, storCount =>
    if tuplePos < alEnd then
      match rlpList payload tuplePos with
      | .error e => .error ("tuple len: " ++ e)
      | .ok (tp, tupleLen) =>
        match rlpStringOfLen payload tp 20 with
        | .error e => .error ("tuple addr len: " ++ e)
        | .ok addrPos =>
          match rlpList payload (addrPos + 20) with
          | .error e => .error ("storage key list len: " ++ e)
          | .ok (storagePos, storageLen) =>
            match parseAlStorKeys payload (storagePos + storageLen) fuel storagePos 0 with
            | .error e => .error e
            | .ok (sKeyPos, keys) =>
              if sKeyPos ≠ storagePos + storageLen then
                .error "unexpected storage key items"
              else if tp + tupleLen ≠ sKeyPos then
                .error "extraneous space in the tuple after storage key list"
              else parseAlTuples payload alEnd fuel (tp + tupleLen) (addrCount + 1)
                     (storCount + keys)
    else .ok (tuplePos, addrCount, storCount)

/-- The authorization-list loop of `parseTransactionBody` (set-code txs).
Each entry: chain id (must fit a uint64), 20-byte address, nonce, then a
non-legacy signature parsed with a `nil` configured chain id. -/
def parseAuths (payload : Bytes) (authEnd : ℕ) :
    ℕ → ℕ → List SigM → Except String (ℕ × List SigM)
  | 0, _, _ => .error "fuel exhausted"
  | fuel + 1, authPos, acc =>
    if authPos < authEnd then
      match rlpList payload authPos with
      | .error e => .error ("authorization: " ++ e)
      | .ok (ap, authLen) =>
        match rlpU256 payload ap with
        | .error e => .error ("authorization chainId: " ++ e)
        | .ok (q1, cid) =>
          if ¬ cid < U64 then .error "authorization chainId is too big"
          else
            match rlpStringOfLen payload q1 20 with
            | .error e => .error ("authorization address: " ++ e)
            | .ok q2 =>
              match rlpU64 payload (q2 + 20) with
              | .error e => .error ("authorization nonce: " ++ e)
              | .ok (q3, _) =>
                match parseSignature payload q3 false none with
                | .error e => .error ("authorization signature: " ++ e)
                | .ok (q4, _, sig0) =>
                  if ap + authLen ≠ q4 then
                    .error "authorization: unexpected list items"
                  else parseAuths payload authEnd fuel (ap + authLen)
                         (acc ++ [{ sig0 with chainID := cid }])
    else .ok (authPos, acc)

/-- The blob-versioned-hash loop of `parseTransactionBody`. -/
def parseBlobHashes (payload : Bytes) (hashEnd : ℕ) :
    ℕ → ℕ → List Bytes → Except String (ℕ × List Bytes)
  | 0, _, _ => .error "fuel exhausted"
  | fuel + 1, hashPos, acc =>
    if hashPos < hashEnd then
      match rlpStringOfLen payload hashPos 32 with
      | .error e => .error ("blob hash: " ++ e)
      | .ok dp => parseBlobHashes payload hashEnd fuel (dp + 32) (acc ++ [sliceOf payload dp 32])
    else .ok (hashPos, acc)

/-- The fixed-width string loops of the blob wrapper (blobs, commitments,
proofs): strings of exactly `itemLen` bytes until `endPos`. -/
def parseFixedStrings (payload : Bytes) (endPos itemLen : ℕ) (msg : String) :
    ℕ → ℕ → List Bytes → Except String (ℕ × List Bytes)
  | 0, _, _ => .error "fuel exhausted"
  | fuel + 1, pos, acc =>
    if pos < endPos then
      match rlpStringOfLen payload pos itemLen with
      | .error e => .error (msg ++ e)
      | .ok dp =>
        parseFixedStrings payload endPos itemLen msg fuel (dp + itemLen)
          (acc ++ [sliceOf payload dp itemLen])
    else .ok (pos, acc)

/-- `fixedgas.BlobSize`. -/
def blobSize : ℕ := 131072

/-- The deposit branch of `parseTransactionBody` (type `0x7e`): skip the
source hash, copy `from` straight into the sender buffer when sender recovery
was requested, note contract creation, skip mint, parse value/gas, skip the
system-tx flag, count the data bytes, and fix the rollup cost data at zero.
No signature is parsed and no key recovery runs. -/
def parseDepositBody (idHash : Bytes) (withSender : Bool) (payload : Bytes) (p : ℕ)
    (slotRlp : Bytes) (sender0 : Bytes) : Except String (TxSlotM × Option Bytes × ℕ) :=
  match rlpSkipString payload p with
  | .error e => .error ("depositTx sourceHash: " ++ e)
  | .ok (p1, _) =>
    match rlpString payload p1 with
    | .error e => .error ("depositTx from: " ++ e)
    | .ok (fp, fl) =>
      let senderOut := if withSender then some (copyInto sender0 (sliceOf payload fp fl)) else none
      match rlpSkipString payload (fp + fl) with
      | .error e => .error ("depositTx to: " ++ e)
      | .ok (p3, toLen) =>
        match rlpSkipString payload p3 with
        | .error e => .error ("depositTx mint: " ++ e)
        | .ok (p4, _) =>
          match rlpU256 payload p4 with
          | .error e => .error ("depositTx value: " ++ e)
          | .ok (p5, value) =>
            match rlpU64 payload p5 with
            | .error e => .error ("depositTx gas: " ++ e)
            | .ok (p6, gas) =>
              match rlpSkipString payload p6 with
              | .error e => .error ("depositTx isSystemTx: " ++ e)
              | .ok (p7, _) =>
                match rlpString payload p7 with
                | .error e => .error ("depositTx data len: " ++ e)
                | .ok (dp, dl) =>
                  .ok ({ typ := DepositTxType, rlp := slotRlp,
                         creation := toLen == 0, value := value, gas := gas,
                         dataLen := dl,
                         dataNonZeroLen := countNonZero (sliceOf payload dp dl),
                         rollupCostData := ⟨0, 0, 0⟩, idHash := idHash },
                        senderOut, dp + dl)

/-- The signed branch of `parseTransactionBody` (all non-deposit types):
chain id (non-legacy), nonce, tip, fee cap, gas, destination, value, data,
the whole-payload rollup cost data, access list / authorizations / blob
section by type, the signature, the identity hash, then — when requested —
signature validation, signing-hash assembly and sender recovery. -/
def parseSignedBody (ctx : TxParseCtxM) (payload : Bytes) (pos p0 : ℕ) (typ : ℕ)
    (slotRlp : Bytes) (sender0 : Bytes) (preIdHash : Option Bytes) :
    Except String (TxSlotM × Option Bytes × ℕ) := do
  let legacy : Bool := typ == LegacyTxType
  let sigHashPos := p0
  let p ←
    if legacy then pure p0
    else do
      let (p, cid) ← rlpU256 payload p0
      if cid = 0 then
        if ctx.chainIDRequired then throw "chainID is required" else pure p
      else if cid ≠ ctx.cfgChainID then throw "invalid chainID"
      else pure p
  let (p, nonce) ← rlpU64 payload p
  let (p, tip) ← rlpU256 payload p
  let (p, feeCap) ←
    if typ < DynamicFeeTxType then pure (p, tip)
    else rlpU256 payload p
  let (p, gas) ← rlpU64 payload p
  let (dp, dl) ← rlpString payload p
  if dl ≠ 0 ∧ dl ≠ 20 then throw "unexpected length of to field"
  let creation : Bool := dl == 0
  let (p, value) ← rlpU256 payload (dp + dl)
  let (dp, dl) ← rlpString payload p
  let dataLen := dl
  let dataNonZeroLen := countNonZero (sliceOf payload dp dl)
  let zeroes := (payload.filter (fun b => b == 0)).length
  let ones := payload.length - zeroes
  let rcd : RollupCostDataM := ⟨zeroes, ones, ctx.flz payload⟩
  let p := dp + dl
  let (p, alAddrCount, alStorCount) ←
    if legacy then pure (p, 0, 0)
    else do
      let (adp, adl) ← rlpList payload p
      let (tuplePos, ac, sc) ← parseAlTuples payload (adp + adl) (payload.length + 1) adp 0 0
      if tuplePos ≠ adp + adl then throw "extraneous space in the access list after all tuples"
      pure (adp + adl, ac, sc)
  let (p, auths) ←
    if typ = SetCodeTxType then do
      let (adp, adl) ← rlpList payload p
      let (authPos, auths0) ← parseAuths payload (adp + adl) (payload.length + 1) adp []
      if authPos ≠ adp + adl then throw "extraneous space in the authorizations"
      pure (adp + adl, auths0)
    else pure (p, ([] : List SigM))
  let (p, blobFeeCap, blobHashes) ←
    if typ = BlobTxType then do
      let (p1, bfc) ← rlpU256 payload p
      let (hdp, hdl) ← rlpList payload p1
      let (hashPos, hs) ← parseBlobHashes payload (hdp + hdl) (payload.length + 1) hdp []
      if hashPos ≠ hdp + hdl then throw "extraneous space in the blob versioned hashes"
      pure (hdp + hdl, bfc, hs)
    else pure (p, 0, ([] : List Bytes))
  let sigHashEnd := p
  let sigHashLen0 := sigHashEnd - sigHashPos
  let (p2, vByte, sig) ← parseSignature payload p legacy (some ctx.cfgChainID)
  let preEip155 : Bool := legacy && (sig.v == 27 || sig.v == 28)
  let sigHashLen :=
    if legacy && !preEip155 then
      let bits := bitLen sig.chainID
      if bits ≤ 7 then sigHashLen0 + 1 + 2
      else sigHashLen0 + 1 + (bits + 7) / 8 + 2
    else sigHashLen0
  if ¬ legacy ∧ 1 < sig.v then throw "v is too big"
  let idHash :=
    match preIdHash with
    | some h => h
    | none => ctx.keccak (sliceOf payload pos (p2 - pos))
  let slot : TxSlotM :=
    { rlp := slotRlp, value := value, tip := tip, feeCap := feeCap, nonce := nonce,
      dataLen := dataLen, dataNonZeroLen := dataNonZeroLen,
      alAddrCount := alAddrCount, alStorCount := alStorCount, gas := gas,
      idHash := idHash, creation := creation, typ := typ,
      blobFeeCap := blobFeeCap, blobHashes := blobHashes,
      authorizations := auths, rollupCostData := rcd }
  if ctx.withSender = false then
    pure (slot, none, p2)
  else do
    if ¬ ctx.sigValid vByte sig.r sig.s (ctx.allowPreEip2s && legacy) then
      throw "invalid v, r, s"
    let sigHashInput :=
      (if legacy then [] else [typ]) ++
      encodeListLenBytes sigHashLen ++
      sliceOf payload sigHashPos (sigHashEnd - sigHashPos) ++
      (if legacy && !preEip155 then chainIdEnc sig.chainID ++ [0x80, 0x80] else [])
    let sig65 := beBytesPad sig.r 32 ++ beBytesPad sig.s 32 ++ [vByte]
    match ctx.recover (ctx.keccak sigHashInput) sig65 with
    | none => throw "recovering sender from signature failed"
    | some pub =>
      let senderBytes := ((ctx.keccak (pub.drop 1)).drop 12).take 20
      pure (slot, some (copyInto sender0 senderBytes), p2)

/-- Embedding of `TxParseContext.parseTransactionBody`: compute the identity
hash input, then dispatch — deposit transactions take the signature-free
branch, every other type the signed branch. -/
def parseTransactionBody (ctx : TxParseCtxM) (payload : Bytes) (pos p0 : ℕ) (typ : ℕ)
    (slotRlp : Bytes) (sender0 : Bytes) : Except String (TxSlotM × Option Bytes × ℕ) :=
  if typ ≠ LegacyTxType then
    match rlpList payload p0 with
    | .error e => .error ("envelope Head: " ++ e)
    | .ok (dp, dl) =>
      let idHash := ctx.keccak (typ :: sliceOf payload p0 (dp + dl - p0))
      if typ = DepositTxType then
        parseDepositBody idHash ctx.withSender payload dp slotRlp sender0
      else parseSignedBody ctx payload pos dp typ slotRlp sender0 (some idHash)
  else parseSignedBody ctx payload pos p0 typ slotRlp sender0 none

/-- The wrapped-blob tail of `ParseTransaction`: the body must end exactly at
the inner list, then the blobs, commitments and proofs lists follow, and the
wrapper must be exactly consumed. -/
def parseBlobWrapperTail (ctx : TxParseCtxM) (payload : Bytes) (pos : ℕ) (sender0 : Bytes)
    (slotRlp : Bytes) (typ dp2 dl2 : ℕ) : Except String (TxSlotM × Option Bytes × ℕ) :=
  match rlpList payload dp2 with
  | .error e => .error ("wrapped blob tx: " ++ e)
  | .ok (dp3, dl3) =>
    match parseTransactionBody ctx payload pos dp2 typ slotRlp sender0 with
    | .error e => .error e
    | .ok (slot, sender, p2) =>
      if p2 ≠ dp3 + dl3 then .error "unexpected leftover after blob tx body"
      else
        match rlpList payload p2 with
        | .error e => .error ("blobs len: " ++ e)
        | .ok (bdp, bdl) =>
          match parseFixedStrings payload (bdp + bdl) blobSize "blob: "
              (payload.length + 1) bdp [] with
          | .error e => .error e
          | .ok (blobPos, blobs) =>
            if blobPos ≠ bdp + bdl then .error "extraneous space in blobs"
            else
              match rlpList payload blobPos with
              | .error e => .error ("commitments len: " ++ e)
              | .ok (cdp, cdl) =>
                match parseFixedStrings payload (cdp + cdl) 48 "commitment: "
                    (payload.length + 1) cdp [] with
                | .error e => .error e
                | .ok (comPos, coms) =>
                  if comPos ≠ cdp + cdl then .error "extraneous space in commitments"
                  else
                    match rlpList payload comPos with
                    | .error e => .error ("proofs len: " ++ e)
                    | .ok (pdp, pdl) =>
                      match parseFixedStrings payload (pdp + pdl) 48 "proof: "
                          (payload.length + 1) pdp [] with
                      | .error e => .error e
                      | .ok (prPos, prs) =>
                        if prPos ≠ pdp + pdl then .error "extraneous space in proofs"
                        else if prPos ≠ dp2 + dl2 then
                          .error "extraneous elements in blobs wrapper"
                        else
                          let slot2 := { slot with
                            blobs := blobs, commitments := coms, proofs := prs }
                          .ok (slot2, sender, prPos)

/-- Embedding of `TxParseContext.ParseTransaction`. -/
def parseTransaction (ctx : TxParseCtxM) (payload : Bytes) (pos : ℕ) (sender0 : Bytes)
    (hasEnvelope wrappedWithBlobs : Bool) : Except String (TxSlotM × Option Bytes × ℕ) :=
  if payload.length = 0 then .error "empty rlp"
  else if ctx.withSender ∧ sender0.length ≠ 20 then .error "expect sender buffer of len 20"
  else
    match rlpHead payload pos with
    | .error e => .error ("size Head: " ++ e)
    | .ok (dataPos, dataLen, legacy) =>
      if dataLen = 0 then .error "transaction must be either 1 list or 1 string"
      else if dataLen = 1 ∧ ¬ legacy ∧ hasEnvelope then .error "expected envelope in the payload"
      else if ¬ legacy then
        let typ := payload.getD dataPos 0
        if SetCodeTxType < typ ∧ typ ≠ DepositTxType then .error "unknown transaction type"
        else if payload.length ≤ dataPos + 1 then .error "unexpected end of payload after txType"
        else
          match rlpList payload (dataPos + 1) with
          | .error e => .error ("envelope Head: " ++ e)
          | .ok (dp2, dl2) =>
            let slotRlp := sliceOf payload dataPos (dp2 + dl2 - dataPos)
            if typ = BlobTxType ∧ wrappedWithBlobs then
              match parseBlobWrapperTail ctx payload pos sender0 slotRlp typ dp2 dl2 with
              | .error e => .error e
              | .ok (slot, sender, p2) => .ok ({ slot with size := slotRlp.length }, sender, p2)
            else
              match parseTransactionBody ctx payload pos (dataPos + 1) typ slotRlp sender0 with
              | .error e => .error e
              | .ok (slot, sender, p2) => .ok ({ slot with size := slotRlp.length }, sender, p2)
      else
        let slotRlp := sliceOf payload pos (dataPos + dataLen - pos)
        match parseTransactionBody ctx payload pos dataPos LegacyTxType slotRlp sender0 with
        | .error e => .error e
        | .ok (slot, sender, p2) => .ok ({ slot with size := slotRlp.length }, sender, p2)

/-- C7: analysis of the legacy signature `v` value.  Given that the payload
holds three integers (v, r, s) at `pos`: `v ∈ {27, 28}` is pre-EIP-155 (the
configured chain id is assumed, parity is `v - 27`); otherwise `v` must be at
least 35 and encodes `chainID*2 + 35 + yParity`, and parsing fails exactly
when the chain id decoded from `v` differs from the configured one. -/
theorem parseSignature_legacy_v (payload : Bytes) (pos cfg v r s p1 p2 p3 : ℕ)
    (hv : rlpU256 payload pos = .ok (p1, v))
    (hr : rlpU256 payload p1 = .ok (p2, r))
    (hs : rlpU256 payload p2 = .ok (p3, s)) :
    ((v = 27 ∨ v = 28) →
       parseSignature payload pos true (some cfg)
         = .ok (p3, v - 27, { chainID := cfg, v := v, r := r, s := s })) ∧
    (v ≠ 27 → v ≠ 28 → v < 35 →
       ∃ e, parseSignature payload pos true (some cfg) = .error e) ∧
    (35 ≤ v →
       ((v - 35) / 2 ≠ cfg →
          ∃ e, parseSignature payload pos true (some cfg) = .error e) ∧
       ((v - 35) / 2 = cfg →
          parseSignature payload pos true (some cfg)
            = .ok (p3, (v - 35) % 2, { chainID := cfg, v := v, r := r, s := s }) ∧
          v = cfg * 2 + 35 + (v - 35) % 2)) := by
  have hmod : (v - 35) % U64 % 2 = (v - 35) % 2 :=
    Nat.mod_mod_of_dvd _ (by exact dvd_pow_self 2 (by norm_num))
  refine ⟨?_, ?_, ?_⟩
  · intro h27
    unfold parseSignature
    rw [hv]
    simp only [if_pos h27]
    simp [hr, hs]
  · intro h27 h28 hlt
    have hno : ¬ (v = 27 ∨ v = 28) := by
      rintro (h | h) <;> [exact h27 h; exact h28 h]
    unfold parseSignature
    rw [hv]
    simp only [if_neg hno, if_pos hlt]
    exact ⟨_, rfl⟩
  · intro hge
    have hno : ¬ (v = 27 ∨ v = 28) := by
      rintro (h | h) <;> omega
    have hnlt : ¬ v < 35 := by omega
    constructor
    · intro hne
      unfold parseSignature
      rw [hv]
      simp only [if_neg hno, if_neg hnlt, if_pos hne]
      exact ⟨_, rfl⟩
    · intro heq
      constructor
      · unfold parseSignature
        rw [hv]
        simp only [if_neg hno, if_neg hnlt, heq]
        simp only [if_neg (by simp : ¬ cfg ≠ cfg)]
        rw [hmod]
        simp [hr, hs]
      · omega

/-- Witness for C7: a concrete EIP-155 signature payload with `v = 37` and
chain id 1 parses with chain id 1 and parity 0, and `37 = 1*2 + 35 + 0`. -/
theorem parseSignature_legacy_v_witness :
    parseSignature [0x25, 0x01, 0x01] 0 true (some 1)
      = .ok (3, 0, { chainID := 1, v := 37, r := 1, s := 1 }) ∧
    (37 : ℕ) = 1 * 2 + 35 + 0 := by
  have h := (parseSignature_legacy_v [0x25, 0x01, 0x01] 0 1 37 1 1 1 2 3
    rfl rfl rfl).2.2 (by norm_num)
  exact ⟨(h.2 (by norm_num)).1, by norm_num⟩

/-- Whether the payload at `pos` carries a deposit transaction: a non-list
RLP item of non-zero length whose first payload byte is the deposit type. -/
def isDepositEnvelope (payload : Bytes) (pos : ℕ) : Bool :=
  match rlpHead payload pos with
  | .ok (dataPos, dataLen, isList) =>
    !isList && dataLen != 0 && (payload.getD dataPos 0 == DepositTxType)
  | .error _ => false

/-- The bytes of the `from` field of the deposit payload at `pos` (type byte,
then the body list, skip the source hash, then the from string). -/
def depositFromField (payload : Bytes) (pos : ℕ) : Option Bytes :=
  match rlpHead payload pos with
  | .ok (dataPos, _, _) =>
    match rlpList payload (dataPos + 1) with
    | .ok (dp2, _) =>
      match rlpSkipString payload dp2 with
      | .ok (p1, _) =>
        match rlpString payload p1 with
        | .ok (fp, fl) => some (sliceOf payload fp fl)
        | .error _ => none
      | .error _ => none
    | .error _ => none
  | .error _ => none

theorem parseDepositBody_spec (idHash : Bytes) (ws : Bool) (payload : Bytes) (p : ℕ)
    (slotRlp sender0 : Bytes) (slot : TxSlotM) (sender : Option Bytes) (pEnd : ℕ)
    (h : parseDepositBody idHash ws payload p slotRlp sender0 = .ok (slot, sender, pEnd)) :
    slot.typ = DepositTxType ∧ slot.rollupCostData = ⟨0, 0, 0⟩ ∧
    (ws = true → ∃ p1 sl fp fl, rlpSkipString payload p = .ok (p1, sl) ∧
       rlpString payload p1 = .ok (fp, fl) ∧
       sender = some (copyInto sender0 (sliceOf payload fp fl))) := by
  unfold parseDepositBody at h
  cases h1 : rlpSkipString payload p with
  | error e => rw [h1] at h; exact absurd h (by simp)
  | ok t1 =>
  obtain ⟨p1, sl⟩ := t1
  rw [h1] at h
  dsimp only at h
  cases h2 : rlpString payload p1 with
  | error e => rw [h2] at h; exact absurd h (by simp)
  | ok t2 =>
  obtain ⟨fp, fl⟩ := t2
  rw [h2] at h
  dsimp only at h
  cases h3 : rlpSkipString payload (fp + fl) with
  | error e => rw [h3] at h; exact absurd h (by simp)
  | ok t3 =>
  obtain ⟨p3, toLen⟩ := t3
  rw [h3] at h
  dsimp only at h
  cases h4 : rlpSkipString payload p3 with
  | error e => rw [h4] at h; exact absurd h (by simp)
  | ok t4 =>
  obtain ⟨p4, mintLen⟩ := t4
  rw [h4] at h
  dsimp only at h
  cases h5 : rlpU256 payload p4 with
  | error e => rw [h5] at h; exact absurd h (by simp)
  | ok t5 =>
  obtain ⟨p5, value⟩ := t5
  rw [h5] at h
  dsimp only at h
  cases h6 : rlpU64 payload p5 with
  | error e => rw [h6] at h; exact absurd h (by simp)
  | ok t6 =>
  obtain ⟨p6, gas⟩ := t6
  rw [h6] at h
  dsimp only at h
  cases h7 : rlpSkipString payload p6 with
  | error e => rw [h7] at h; exact absurd h (by simp)
  | ok t7 =>
  obtain ⟨p7, sysLen⟩ := t7
  rw [h7] at h
  dsimp only at h
  cases h8 : rlpString payload p7 with
  | error e => rw [h8] at h; exact absurd h (by simp)
  | ok t8 =>
  obtain ⟨dp, dl⟩ := t8
  rw [h8] at h
  dsimp only at h
  simp only [Except.ok.injEq, Prod.mk.injEq] at h
  obtain ⟨hslot, hsender, hpe⟩ := h
  subst hslot
  refine ⟨rfl, rfl, ?_⟩
  intro hw
  refine ⟨p1, sl, fp, fl, rfl, h2, ?_⟩
  rw [← hsender]
  simp [hw]

/-- C8: `ParseTransaction` on a deposit payload performs no signature parsing
and no ECDSA sender recovery — its result is identical for any two parse
contexts that agree on everything except the signature-validity and
key-recovery collaborators — and on success the parsed slot carries the
deposit type and a zero `RollupCostData`, with the sender copied verbatim
from the payload's `from` field whenever sender recovery was requested. -/
theorem parseTransaction_deposit (ctx1 ctx2 : TxParseCtxM) (payload : Bytes) (pos : ℕ)
    (sender0 : Bytes) (hasEnvelope wrappedWithBlobs : Bool)
    (hws : ctx1.withSender = ctx2.withSender)
    (hk : ctx1.keccak = ctx2.keccak)
    (hdep : isDepositEnvelope payload pos = true) :
    parseTransaction ctx1 payload pos sender0 hasEnvelope wrappedWithBlobs
      = parseTransaction ctx2 payload pos sender0 hasEnvelope wrappedWithBlobs ∧
    ∀ slot sender p2,
      parseTransaction ctx1 payload pos sender0 hasEnvelope wrappedWithBlobs
        = .ok (slot, sender, p2) →
      slot.typ = DepositTxType ∧
      slot.rollupCostData = ⟨0, 0, 0⟩ ∧
      (ctx1.withSender = true →
        ∃ fb, depositFromField payload pos = some fb ∧
          sender = some (copyInto sender0 fb)) := by
  unfold isDepositEnvelope at hdep
  cases hhead : rlpHead payload pos with
  | error e => rw [hhead] at hdep; simp at hdep
  | ok t =>
  obtain ⟨dataPos, dataLen, isList⟩ := t
  rw [hhead] at hdep
  simp only [Bool.and_eq_true, Bool.not_eq_true', bne_iff_ne, ne_eq, beq_iff_eq] at hdep
  obtain ⟨⟨hlst, hdlen⟩, hbyte⟩ := hdep
  subst hlst
  have hne : ¬ payload.length = 0 := by
    intro h0
    unfold rlpHead at hhead
    rw [if_neg (by rw [h0]; omega)] at hhead
    exact absurd hhead (by simp)
  unfold parseTransaction
  rw [hhead]
  simp only [if_neg hne]
  by_cases hsb : ctx1.withSender = true ∧ sender0.length ≠ 20
  · have hsb2 : ctx2.withSender = true ∧ sender0.length ≠ 20 := by rw [← hws]; exact hsb
    simp only [if_pos hsb, if_pos hsb2]
    refine ⟨by trivial, ?_⟩
    intro slot sender p2 h
    exact absurd h (by simp)
  · have hsb2 : ¬ (ctx2.withSender = true ∧ sender0.length ≠ 20) := by rw [← hws]; exact hsb
    simp only [if_neg hsb, if_neg hsb2]
    simp only [if_neg hdlen]
    by_cases henv : dataLen = 1 ∧ ¬ ((false : Bool) = true) ∧ hasEnvelope = true
    · simp only [if_pos henv]
      refine ⟨by trivial, ?_⟩
      intro slot sender p2 h
      exact absurd h (by simp)
    · simp only [if_neg henv, if_pos (show ¬ ((false : Bool) = true) by simp)]
      rw [hbyte]
      simp only [if_neg
        (show ¬ (SetCodeTxType < DepositTxType ∧ DepositTxType ≠ DepositTxType) by simp)]
      by_cases hplen : payload.length ≤ dataPos + 1
      · simp only [if_pos hplen]
        refine ⟨by trivial, ?_⟩
        intro slot sender p2 h
        exact absurd h (by simp)
      · simp only [if_neg hplen]
        cases hl : rlpList payload (dataPos + 1) with
        | error e =>
          refine ⟨by trivial, ?_⟩
          intro slot sender p2 h
          exact absurd h (by simp)
        | ok t2 =>
        obtain ⟨dp2, dl2⟩ := t2
        dsimp only
        simp only [if_neg (show ¬ (DepositTxType = BlobTxType ∧ wrappedWithBlobs = true) by
          rintro ⟨h3, _⟩; exact absurd h3 (by decide))]
        unfold parseTransactionBody
        simp only [if_pos (show DepositTxType ≠ LegacyTxType by decide)]
        rw [hl]
        dsimp only
        simp only [if_true]
        rw [hk, hws]
        refine ⟨rfl, ?_⟩
        intro slot sender p2 h
        cases hdb : parseDepositBody
            (ctx2.keccak (DepositTxType ::
              sliceOf payload (dataPos + 1) (dp2 + dl2 - (dataPos + 1))))
            ctx2.withSender payload dp2
            (sliceOf payload dataPos (dp2 + dl2 - dataPos)) sender0 with
        | error e => rw [hdb] at h; exact absurd h (by simp)
        | ok t3 =>
        obtain ⟨slot0, sender1, p3⟩ := t3
        rw [hdb] at h
        dsimp only at h
        simp only [Except.ok.injEq, Prod.mk.injEq] at h
        obtain ⟨hslot, hsender, hp⟩ := h
        obtain ⟨hty, hrcd, hsend⟩ := parseDepositBody_spec _ _ _ _ _ _ _ _ _ hdb
        subst hslot
        refine ⟨hty, hrcd, ?_⟩
        intro hw
        obtain ⟨q1, sl, fp, fl, hsk, hstr, hval⟩ := hsend hw
        refine ⟨sliceOf payload fp fl, ?_, ?_⟩
        · unfold depositFromField
          rw [hhead]
          dsimp only
          rw [hl]
          dsimp only
          rw [hsk]
          dsimp only
          rw [hstr]
        · rw [← hsender, hval]

/-- Witness deposit payload: type byte `0x7e`, then the 60-byte body list
`[sourceHash (32 zero bytes), from (20 bytes of 1), to (empty, a creation),
mint 0, value 0, gas 0, isSystemTx 1, data empty]`. -/
def depositPayloadW : Bytes :=
  [0x7e, 0xF8, 0x3C, 0xA0] ++ List.replicate 32 0 ++ [0x94] ++ List.replicate 20 1 ++
    [0x80, 0x80, 0x80, 0x80, 0x01, 0x80]

/-- A parse context with one pair of signature collaborators. -/
def depositCtxW1 : TxParseCtxM :=
  { cfgChainID := 1, keccak := fun _ => List.replicate 32 0,
    sigValid := fun _ _ _ _ => true, recover := fun _ _ => none, flz := fun _ => 0 }

/-- The same context with entirely different signature collaborators. -/
def depositCtxW2 : TxParseCtxM :=
  { cfgChainID := 1, keccak := fun _ => List.replicate 32 0,
    sigValid := fun _ _ _ _ => false, recover := fun _ _ => some (List.replicate 65 7),
    flz := fun _ => 0 }

/-- Witness for C8: on the concrete deposit payload the parse result is
independent of the signature collaborators, and it succeeds with the deposit
type, a zero rollup cost data and the sender equal to the payload's `from`
bytes. -/
theorem parseTransaction_deposit_witness :
    parseTransaction depositCtxW1 depositPayloadW 0 (List.replicate 20 0) false false
      = parseTransaction depositCtxW2 depositPayloadW 0 (List.replicate 20 0) false false ∧
    (parseTransaction depositCtxW1 depositPayloadW 0 (List.replicate 20 0) false false).map
        (fun out => (out.1.typ, out.1.rollupCostData, out.2.1))
      = .ok (DepositTxType, ⟨0, 0, 0⟩, some (List.replicate 20 1)) := by
  have h := parseTransaction_deposit depositCtxW1 depositCtxW2 depositPayloadW 0
    (List.replicate 20 0) false false rfl rfl (by decide)
  exact ⟨h.1, by rfl⟩

/-! ## State transition engine (`core` state_transition)

The `IntraBlockState` collaborator is modelled as an explicit `World` value
with the operations of its contract (balances and nonces as total maps with
`uint256`/`uint64` wrapping, an account-code classification for the
EIP-3607/EIP-7702 checks, the refund counter).  `Snapshot`/`RevertToSnapshot`
are modelled by capturing and restoring the world value.  EVM execution,
intrinsic-gas computation, the blob-gas price, authority recovery and the
post-apply hook are oracles in the environment.  The message's `FeeCap()` is
modelled as always present (every concrete transaction type returns a non-nil
fee cap, so the `st.gasFeeCap != nil` branch of `buyGas` is always taken),
and likewise the block base fee. -/

abbrev Addr := ℕ

/-- EVM-level execution errors (recorded in the result, not consensus). -/
inductive VMErr where
  | executionReverted
  | other (code : ℕ)
deriving DecidableEq

/-- Consensus-level errors of the transition engine.  `panicked` models the
Go panic on a missing L1 cost function in rollup mode. -/
inductive TErr where
  | insufficientFunds
  | gasLimitReached
  | blobGasLimitReached
  | tipAboveFeeCap
  | feeCapTooLow
  | nonceTooHigh
  | nonceTooLow
  | nonceMax
  | senderNoEOA
  | systemTxNotSupported
  | internalFailure
  | maxFeePerBlobGas
  | blobGasPriceErr (code : ℕ)
  | gasUintOverflow
  | intrinsicGas
  | maxInitCodeSizeExceeded
  | type4TxContractCreation
  | panicked
deriving DecidableEq

/-- Account-code classification backing `GetCodeHash` /
`GetDelegatedDesignation`: not in state (`common.Hash{}`), empty code,
an EIP-7702 delegation marker, or real contract code. -/
inductive CodeState where
  | absent
  | empty
  | delegated (a : Addr)
  | other (h : ℕ)
deriving DecidableEq

/-- The world-state contract consumed by the engine. -/
structure World where
  balance : Addr → ℕ
  nonce : Addr → ℕ
  code : Addr → CodeState
  existsInState : Addr → Bool
  refund : ℕ

/-- `AddBalance` (uint256 wrapping add). -/
def addBalance (w : World) (a : Addr) (v : ℕ) : World :=
  { w with balance := fun x => if x = a then (w.balance a + v) % U256 else w.balance x }

/-- `SubBalance` (uint256 wrapping subtract). -/
def subBalance (w : World) (a : Addr) (v : ℕ) : World :=
  { w with balance := fun x =>
      if x = a then (w.balance a + U256 - v % U256) % U256 else w.balance x }

/-- `SetNonce` (uint64). -/
def setNonce (w : World) (a : Addr) (n : ℕ) : World :=
  { w with nonce := fun x => if x = a then n % U64 else w.nonce x }

/-- `SetCode`. -/
def setCode (w : World) (a : Addr) (c : CodeState) : World :=
  { w with code := fun x => if x = a then c else w.code x }

/-- `AddRefund`. -/
def addRefund (w : World) (n : ℕ) : World := { w with refund := w.refund + n }

/-- An EIP-7702 authorization entry (its signature is consumed by the
authority-recovery oracle). -/
structure Auth where
  chainID : ℕ
  address : Addr
  nonce : ℕ
deriving DecidableEq

/-- The `Message` interface fields consumed by the engine. -/
structure Msg where
  sender : Addr
  /-- `To()` (`none` for contract creation). -/
  toAddr : Option Addr
  gasPrice : ℕ
  feeCap : ℕ
  tip : ℕ
  gas : ℕ
  blobGas : ℕ
  maxFeePerBlobGas : ℕ
  value : ℕ
  mint : Option ℕ
  isSystemTx : Bool
  isDepositTx : Bool
  rollupCostData : RollupCostDataM
  nonce : ℕ
  checkNonce : Bool
  data : Bytes
  accessList : List (Addr × List ℕ)
  blobHashes : List ℕ
  authorizations : List Auth
  isFree : Bool

/-- The chain rules consulted by the engine. -/
structure ChainRules where
  chainID : ℕ
  isHomestead : Bool
  isIstanbul : Bool
  isLondon : Bool
  isCancun : Bool
  isPrague : Bool
  isAura : Bool
  isOptimismRegolith : Bool
  isOptimismBedrock : Bool

/-- Block-context fields. -/
structure BlockEnv where
  coinbase : Addr
  baseFee : ℕ
  time : ℕ
  blockNumber : ℕ
  excessBlobGas : Option ℕ

/-- Result of an EVM `Call`/`Create` invocation. -/
structure EvmOutcome where
  ret : Bytes
  gasRemaining : ℕ
  vmerr : Option VMErr
  world : World

/-- The engine environment: chain rules, block context and collaborators. -/
structure STEnv where
  rules : ChainRules
  block : BlockEnv
  /-- `vmConfig.NoBaseFee`. -/
  noBaseFee : Bool
  /-- `vmConfig.HasEip3860(rules)`. -/
  hasEip3860 : Bool
  /-- `evm.Context.L1CostFunc` (`nil` means not configured). -/
  l1CostFunc : Option (RollupCostDataM → ℕ → Option ℕ)
  /-- `evm.Context.PostApplyMessage` hook. -/
  postApplyMessage : Option (World → World)
  /-- `ChainConfig().GetBurntContract(blockNumber)`. -/
  getBurntContract : ℕ → Option Addr
  /-- `ChainConfig().IsOptimismRegolith(time)`. -/
  isOptimismRegolithAt : ℕ → Bool
  /-- `misc.GetBlobGasPrice(config, excessBlobGas)`. -/
  getBlobGasPrice : ℕ → Except TErr ℕ
  /-- `txpoolcfg.CalcIntrinsicGas` behind `IntrinsicGas` (`none` = overflow). -/
  calcIntrinsicGas : Bytes → List (Addr × List ℕ) → Bool → Bool → Bool → Bool → ℕ → Option ℕ
  /-- `evm.Call(sender, to, data, gas, value, bailout)`. -/
  evmCall : World → Addr → Addr → Bytes → ℕ → ℕ → Bool → EvmOutcome
  /-- `evm.Create(sender, data, gas, value, bailout)`. -/
  evmCreate : World → Addr → Bytes → ℕ → ℕ → Bool → EvmOutcome
  /-- `auth.RecoverSigner`. -/
  recoverAuthority : Auth → Option Addr
  /-- `evm.Context.CanTransfer`. -/
  canTransfer : World → Addr → ℕ → Bool

/-- `params.OptimismBaseFeeRecipient` (0x42...0019). -/
def optimismBaseFeeRecipient : Addr := 0x4200000000000000000000000000000000000019

/-- `params.OptimismL1FeeRecipient` (0x42...001A). -/
def optimismL1FeeRecipient : Addr := 0x420000000000000000000000000000000000001A

/-- `params.MaxInitCodeSize`. -/
def maxInitCodeSize : ℕ := 49152

/-- `params.RefundQuotient`. -/
def refundQuotient : ℕ := 2

/-- `params.RefundQuotientEIP3529`. -/
def refundQuotientEIP3529 : ℕ := 5

/-- `fixedgas.PerEmptyAccountCost`. -/
def perEmptyAccountCost : ℕ := 25000

/-- `fixedgas.PerAuthBaseCost`. -/
def perAuthBaseCost : ℕ := 12500

/-- The mutable `StateTransition` fields threaded through the engine: the
world, the block gas pool (and blob pool), `gasRemaining`, `initialGas` and
`evm.BlobFee`. -/
structure STState where
  world : World
  gp : ℕ
  blobGp : ℕ
  gasRemaining : ℕ
  initialGas : ℕ
  blobFee : ℕ

/-- `GasPool.SubGas`. -/
def gpSubGas (st : STState) (g : ℕ) : STState × Option TErr :=
  if st.gp < g then (st, some .gasLimitReached)
  else ({ st with gp := st.gp - g }, none)

/-- `GasPool.SubBlobGas`. -/
def gpSubBlobGas (st : STState) (g : ℕ) : STState × Option TErr :=
  if st.blobGp < g then (st, some .blobGasLimitReached)
  else ({ st with blobGp := st.blobGp - g }, none)

def addBalanceST (st : STState) (a : Addr) (v : ℕ) : STState :=
  { st with world := addBalance st.world a v }

def subBalanceST (st : STState) (a : Addr) (v : ℕ) : STState :=
  { st with world := subBalance st.world a v }

def setNonceST (st : STState) (a : Addr) (n : ℕ) : STState :=
  { st with world := setNonce st.world a n }

/-- The L1-cost lookup at the head of `buyGas`. -/
def buyGasL1Cost (E : STEnv) (msg : Msg) : Option ℕ :=
  match E.l1CostFunc with
  | some fn => fn msg.rollupCostData E.block.time
  | none => none

/-- The Cancun blob-gas step of `buyGas`: returns the state (blob pool
debited on success), an error, and `blobGasVal`. -/
def buyGasBlobStep (E : STEnv) (msg : Msg) (st : STState) : STState × Option TErr × ℕ :=
  if E.rules.isCancun then
    match E.block.excessBlobGas with
    | none => (st, some .internalFailure, 0)
    | some ebg =>
      match E.getBlobGasPrice ebg with
      | .error e => (st, some e, 0)
      | .ok blobGasPrice =>
        if U256 ≤ blobGasPrice * msg.blobGas then (st, some .insufficientFunds, 0)
        else
          match gpSubBlobGas st msg.blobGas with
          | (st2, some e) => (st2, some e, 0)
          | (st2, none) => (st2, none, blobGasPrice * msg.blobGas)
  else (st, none, 0)

/-- The `balanceCheck` accumulation of `buyGas` (`none` = overflow). -/
def buyGasBalanceCheck (E : STEnv) (msg : Msg) (l1Cost : Option ℕ) : Option ℕ :=
  if U256 ≤ msg.gas * msg.feeCap then none
  else if U256 ≤ msg.gas * msg.feeCap + msg.value then none
  else
    let bc0 := msg.gas * msg.feeCap + msg.value
    let bcBlob : Option ℕ :=
      if E.rules.isCancun then
        if U256 ≤ msg.maxFeePerBlobGas * msg.blobGas then none
        else if U256 ≤ bc0 + msg.maxFeePerBlobGas * msg.blobGas then none
        else some (bc0 + msg.maxFeePerBlobGas * msg.blobGas)
      else some bc0
    match bcBlob with
    | none => none
    | some bc1 =>
      match l1Cost with
      | some c => if U256 ≤ bc1 + c then none else some (bc1 + c)
      | none => some bc1

/-- The balance check and debit of `buyGas` (skipped under `gasBailout`). -/
def buyGasDebit (E : STEnv) (msg : Msg) (gasBailout : Bool) (l1Cost : Option ℕ)
    (gasVal blobGasVal : ℕ) (st2 : STState) : STState × Option TErr :=
  if ¬ gasBailout then
    match buyGasBalanceCheck E msg l1Cost with
    | none => (st2, some .insufficientFunds)
    | some balanceCheck =>
      if st2.world.balance msg.sender < balanceCheck then (st2, some .insufficientFunds)
      else
        (subBalanceST (subBalanceST st2 msg.sender gasVal) msg.sender blobGasVal, none)
  else (st2, none)

/-- Embedding of `StateTransition.buyGas`. -/
def buyGas (E : STEnv) (msg : Msg) (gasBailout : Bool) (st : STState) :
    STState × Option TErr :=
  if U256 ≤ msg.gas * msg.gasPrice then (st, some .insufficientFunds)
  else
    let l1Cost := buyGasL1Cost E msg
    let gasVal :=
      match l1Cost with
      | some c => (msg.gas * msg.gasPrice + c) % U256
      | none => msg.gas * msg.gasPrice
    match buyGasBlobStep E msg st with
    | (st2, some e, _) => (st2, some e)
    | (st2, none, blobGasVal) =>
      match buyGasDebit E msg gasBailout l1Cost gasVal blobGasVal st2 with
      | (st3, some e) => (st3, some e)
      | (st3, none) =>
        match gpSubGas st3 msg.gas with
        | (st4, some e) => (st4, some e)
        | (st4, none) =>
          let st5 := { st4 with gasRemaining := st4.gasRemaining + msg.gas }
          let st6 := { st5 with initialGas := msg.gas }
          ({ st6 with blobFee := blobGasVal }, none)


/-- Embedding of `CheckEip1559TxGasFeeCap` (with a present base fee). -/
def checkEip1559TxGasFeeCap (gasFeeCap tip baseFee : ℕ) (isFree : Bool) : Option TErr :=
  if gasFeeCap < tip then some .tipAboveFeeCap
  else if gasFeeCap < baseFee ∧ ¬ isFree then some .feeCapTooLow
  else none

/-- Embedding of `StateTransition.preCheck`. -/
def preCheck (E : STEnv) (msg : Msg) (gasBailout : Bool) (st : STState) :
    STState × Option TErr :=
  if msg.isDepositTx then
    if st.world.balance msg.sender < msg.value ∧ ¬ gasBailout then
      (st, some .insufficientFunds)
    else
      let st := { st with initialGas := msg.gas, gasRemaining := st.gasRemaining + msg.gas }
      if msg.isSystemTx then
        if E.rules.isOptimismRegolith then (st, some .systemTxNotSupported)
        else (st, none)
      else gpSubGas st msg.gas
  else
    let nonceCheck : Option TErr :=
      if msg.checkNonce then
        let stNonce := st.world.nonce msg.sender
        if stNonce < msg.nonce then some .nonceTooHigh
        else if msg.nonce < stNonce then some .nonceTooLow
        else if (stNonce + 1) % U64 < stNonce then some .nonceMax
        else
          match st.world.code msg.sender with
          | .absent => none
          | .empty => none
          | .delegated _ => none
          | .other _ => some .senderNoEOA
      else none
    match nonceCheck with
    | some e => (st, some e)
    | none =>
      let londonCheck : Option TErr :=
        if E.rules.isLondon then
          if E.noBaseFee ∧ msg.feeCap = 0 ∧ msg.tip = 0 then none
          else checkEip1559TxGasFeeCap msg.feeCap msg.tip E.block.baseFee msg.isFree
        else none
      match londonCheck with
      | some e => (st, some e)
      | none =>
        let blobCheck : Option TErr :=
          if 0 < msg.blobGas ∧ E.rules.isCancun then
            match E.block.excessBlobGas with
            | none => some .internalFailure
            | some ebg =>
              match E.getBlobGasPrice ebg with
              | .error e => some e
              | .ok blobGasPrice =>
                if ¬ E.noBaseFee ∧ msg.maxFeePerBlobGas < blobGasPrice then
                  some .maxFeePerBlobGas
                else none
          else none
        match blobCheck with
        | some e => (st, some e)
        | none => buyGas E msg gasBailout st

/-- One iteration of the authorization loop of `innerTransitionDb`
(EIP-7702).  Steps that `continue` leave the world unchanged. -/
def authStep (E : STEnv) (rules : ChainRules) (w : World) (auth : Auth) : World :=
  if auth.chainID ≠ 0 ∧ (U64 ≤ rules.chainID ∨ rules.chainID ≠ auth.chainID) then w
  else
    match E.recoverAuthority auth with
    | none => w
    | some authority =>
      let codeOk :=
        match w.code authority with
        | .absent => true
        | .empty => true
        | .delegated _ => true
        | .other _ => false
      if codeOk = false then w
      else if w.nonce authority ≠ auth.nonce then w
      else
        let w1 := if w.existsInState authority then
            addRefund w (perEmptyAccountCost - perAuthBaseCost)
          else w
        let w2 := if auth.address = 0 then setCode w1 authority .empty
          else setCode w1 authority (.delegated auth.address)
        setNonce w2 authority (w2.nonce authority + 1)

/-- The full authorization loop. -/
def processAuths (E : STEnv) (rules : ChainRules) (w : World) (auths : List Auth) : World :=
  auths.foldl (authStep E rules) w

/-- VM and consensus failures recorded in an `ExecutionResult`. -/
inductive ExecErr where
  | vm (e : VMErr)
  | failedDeposit (e : TErr)
deriving DecidableEq

/-- Embedding of `evmtypes.ExecutionResult` (fields consumed here). -/
structure ExecutionResultM where
  usedGas : ℕ
  err : Option ExecErr
  reverted : Bool := false
  returnData : Bytes := []
  senderInitBalance : ℕ := 0
  coinbaseInitBalance : ℕ := 0
  feeTipped : ℕ := 0
deriving DecidableEq

/-- Embedding of `StateTransition.refundGas`. -/
def refundGas (msg : Msg) (quotient : ℕ) (st : STState) : STState :=
  let refund := min ((st.initialGas - st.gasRemaining) / quotient) st.world.refund
  let st1 := { st with gasRemaining := st.gasRemaining + refund }
  let remaining := (st1.gasRemaining * msg.gasPrice) % U256
  let st2 := addBalanceST st1 msg.sender remaining
  { st2 with gp := st2.gp + st2.gasRemaining }

/-- The effective tip computed by `innerTransitionDb`: under London,
`min(tip, feeCap − baseFee)` when `feeCap > baseFee` and 0 otherwise;
before London, the transaction's gas price. -/
def effectiveTipOf (E : STEnv) (msg : Msg) : ℕ :=
  if E.rules.isLondon then
    if E.block.baseFee < msg.feeCap then min msg.tip (msg.feeCap - E.block.baseFee)
    else 0
  else msg.gasPrice

/-- The burnt-contract transfer of `innerTransitionDb`: for a non-free
message under London, if a burnt contract is configured at the block
number, credit it with `gasUsed * baseFee` (and, under Aura + Prague,
with the blob fee). -/
def burntContractStep (E : STEnv) (msg : Msg) (gasUsed : ℕ) (st : STState) : STState :=
  if ¬ msg.isFree ∧ E.rules.isLondon then
    match E.getBurntContract E.block.blockNumber with
    | some bca =>
      let st2 := addBalanceST st bca ((gasUsed * E.block.baseFee) % U256)
      if E.rules.isAura ∧ E.rules.isPrague then addBalanceST st2 bca st2.blobFee
      else st2
    | none => st
  else st

/-- The tail of `innerTransitionDb` after EVM execution: deposit result
shortcuts, gas refund, coinbase tip, burnt-contract transfer, result
construction, post-apply hook and the bedrock fee transfers. -/
def innerTransitionTail (E : STEnv) (msg : Msg) (refunds : Bool)
    (senderInitBalance coinbaseInitBalance : ℕ) (vmerr : Option VMErr) (ret : Bytes)
    (stE : STState) : STState × Except TErr ExecutionResultM :=
  if msg.isDepositTx ∧ ¬ E.rules.isOptimismRegolith then
    let gasUsed := if msg.isSystemTx then 0 else msg.gas
    (stE, .ok { usedGas := gasUsed, err := vmerr.map .vm, returnData := ret })
  else
    let st := if refunds then
        if E.rules.isLondon then refundGas msg refundQuotientEIP3529 stE
        else refundGas msg refundQuotient stE
      else stE
    if msg.isDepositTx ∧ E.rules.isOptimismRegolith then
      (st, .ok { usedGas := st.initialGas - st.gasRemaining, err := vmerr.map .vm,
                 returnData := ret })
    else
      let effectiveTip := effectiveTipOf E msg
      let gasUsed := st.initialGas - st.gasRemaining
      let amount := (gasUsed * effectiveTip) % U256
      let st := addBalanceST st E.block.coinbase amount
      let st := burntContractStep E msg gasUsed st
      let result : ExecutionResultM :=
        { usedGas := gasUsed, err := vmerr.map .vm,
          reverted := vmerr = some .executionReverted, returnData := ret,
          senderInitBalance := senderInitBalance,
          coinbaseInitBalance := coinbaseInitBalance, feeTipped := amount }
      let st :=
        match E.postApplyMessage with
        | some f => { st with world := f st.world }
        | none => st
      if E.rules.isOptimismBedrock then
        let st := addBalanceST st optimismBaseFeeRecipient
          ((gasUsed * E.block.baseFee) % U256)
        match E.l1CostFunc with
        | none => (st, .error .panicked)
        | some fn =>
          match fn msg.rollupCostData E.block.time with
          | some cost => (addBalanceST st optimismL1FeeRecipient cost, .ok result)
          | none => (st, .ok result)
      else (st, .ok result)

/-- Embedding of `StateTransition.innerTransitionDb` (tracer hooks are
no-ops; `Prepare` touches only access-list warmup, outside this model). -/
def innerTransitionDb (E : STEnv) (msg : Msg) (refunds gasBailout : Bool)
    (st0 : STState) : STState × Except TErr ExecutionResultM :=
  let senderInitBalance := st0.world.balance msg.sender
  let coinbaseInitBalance := st0.world.balance E.block.coinbase
  match preCheck E msg gasBailout st0 with
  | (st, some e) => (st, .error e)
  | (st, none) =>
    let rules := E.rules
    let contractCreation := msg.toAddr = none
    let isEIP3860 := E.hasEip3860
    let st := if ¬ contractCreation then
        setNonceST st msg.sender (st.world.nonce msg.sender + 1)
      else st
    let auths := msg.authorizations
    if contractCreation ∧ auths ≠ [] then (st, .error .type4TxContractCreation)
    else
      let st := { st with world := processAuths E rules st.world auths }
      match E.calcIntrinsicGas msg.data msg.accessList contractCreation
          rules.isHomestead rules.isIstanbul isEIP3860 auths.length with
      | none => (st, .error .gasUintOverflow)
      | some gas =>
        if st.gasRemaining < gas then (st, .error .intrinsicGas)
        else
          let st := { st with gasRemaining := st.gasRemaining - gas }
          let bailout := gasBailout ∧ msg.value ≠ 0 ∧
            ¬ E.canTransfer st.world msg.sender msg.value
          if isEIP3860 ∧ contractCreation ∧ maxInitCodeSize < msg.data.length then
            (st, .error .maxInitCodeSizeExceeded)
          else
            let outcome :=
              match msg.toAddr with
              | none =>
                E.evmCreate st.world msg.sender msg.data st.gasRemaining msg.value bailout
              | some t =>
                E.evmCall st.world msg.sender t msg.data st.gasRemaining msg.value bailout
            let st := { { st with world := outcome.world }
                        with gasRemaining := outcome.gasRemaining }
            innerTransitionTail E msg refunds senderInitBalance coinbaseInitBalance
              outcome.vmerr outcome.ret st

/-- The mint step at the head of `TransitionDb`. -/
def mintApplied (msg : Msg) (st : STState) : STState :=
  match msg.mint with
  | some m => addBalanceST st msg.sender m
  | none => st

/-- Embedding of `StateTransition.TransitionDb`.  The snapshot taken for a
deposit transaction is modelled by capturing the world value. -/
def TransitionDb (E : STEnv) (msg : Msg) (refunds gasBailout : Bool)
    (st0 : STState) : STState × Except TErr ExecutionResultM :=
  let stM := mintApplied msg st0
  let snapshot : Option World := if msg.isDepositTx then some stM.world else none
  match innerTransitionDb E msg refunds gasBailout stM with
  | (st1, .ok result) => (st1, .ok result)
  | (st1, .error e) =>
    if e ≠ .gasLimitReached ∧ msg.isDepositTx then
      let st2 := { st1 with world := snapshot.getD st1.world }
      let st3 := setNonceST st2 msg.sender (st2.world.nonce msg.sender + 1)
      let gasUsed :=
        if msg.isSystemTx ∧ ¬ E.isOptimismRegolithAt E.block.time then 0 else msg.gas
      (st3, .ok { usedGas := gasUsed, err := some (.failedDeposit e), returnData := [] })
    else (st1, .error e)

lemma addBalance_balance_other (w : World) (b : Addr) (v : ℕ) (a : Addr) (ha : a ≠ b) :
    (addBalance w b v).balance a = w.balance a := by
  simp [addBalance, ha]

lemma addBalance_balance_self (w : World) (a : Addr) (v : ℕ) :
    (addBalance w a v).balance a = (w.balance a + v) % U256 := by
  simp [addBalance]

lemma subBalance_balance_other (w : World) (b : Addr) (v : ℕ) (a : Addr) (ha : a ≠ b) :
    (subBalance w b v).balance a = w.balance a := by
  simp [subBalance, ha]

lemma setNonce_balance (w : World) (b : Addr) (n : ℕ) :
    (setNonce w b n).balance = w.balance := rfl

lemma gpSubGas_world (st : STState) (g : ℕ) : ((gpSubGas st g).1).world = st.world := by
  unfold gpSubGas; split <;> rfl

lemma gpSubBlobGas_world (st : STState) (g : ℕ) :
    ((gpSubBlobGas st g).1).world = st.world := by
  unfold gpSubBlobGas; split <;> rfl

lemma authStep_balance (E : STEnv) (rules : ChainRules) (w : World) (auth : Auth) :
    (authStep E rules w auth).balance = w.balance := by
  unfold authStep
  repeat' split
  all_goals rfl

lemma processAuths_balance (E : STEnv) (rules : ChainRules) (auths : List Auth)
    (w : World) : (processAuths E rules w auths).balance = w.balance := by
  induction auths generalizing w with
  | nil => rfl
  | cons a l ih =>
    show (processAuths E rules (authStep E rules w a) l).balance = w.balance
    rw [ih, authStep_balance]

lemma buyGasBlobStep_world (E : STEnv) (msg : Msg) (st : STState) :
    ((buyGasBlobStep E msg st).1).world = st.world := by
  unfold buyGasBlobStep
  split
  · split
    · rfl
    · split
      · rfl
      · split
        · rfl
        · split
          case _ st2 e heq =>
            have := gpSubBlobGas_world st msg.blobGas
            rw [heq] at this; exact this
          case _ st2 heq =>
            have := gpSubBlobGas_world st msg.blobGas
            rw [heq] at this; exact this
  · rfl

lemma buyGasDebit_balance_other (E : STEnv) (msg : Msg) (gasBailout : Bool)
    (l1Cost : Option ℕ) (gasVal blobGasVal : ℕ) (st2 : STState) (a : Addr)
    (ha : a ≠ msg.sender) :
    ((buyGasDebit E msg gasBailout l1Cost gasVal blobGasVal st2).1).world.balance a
      = st2.world.balance a := by
  unfold buyGasDebit
  split
  · split
    · rfl
    · split
      · rfl
      · show (subBalance (subBalance st2.world msg.sender gasVal) msg.sender
          blobGasVal).balance a = st2.world.balance a
        rw [subBalance_balance_other _ _ _ _ ha, subBalance_balance_other _ _ _ _ ha]
  · rfl

lemma gpSubGas_fst (st st2 : STState) (g : ℕ) (e : Option TErr)
    (h : gpSubGas st g = (st2, e)) : st2.world = st.world := by
  have hw := gpSubGas_world st g; rw [h] at hw; exact hw

lemma buyGasDebit_fst_balance_other (E : STEnv) (msg : Msg) (gasBailout : Bool)
    (l1Cost : Option ℕ) (gasVal blobGasVal : ℕ) (st2 st3 : STState) (e : Option TErr)
    (a : Addr) (h : buyGasDebit E msg gasBailout l1Cost gasVal blobGasVal st2 = (st3, e))
    (ha : a ≠ msg.sender) : st3.world.balance a = st2.world.balance a := by
  have hw := buyGasDebit_balance_other E msg gasBailout l1Cost gasVal blobGasVal st2 a ha
  rw [h] at hw; exact hw

lemma buyGas_balance_other (E : STEnv) (msg : Msg) (gasBailout : Bool) (st : STState)
    (a : Addr) (ha : a ≠ msg.sender) :
    ((buyGas E msg gasBailout st).1).world.balance a = st.world.balance a := by
  unfold buyGas
  split
  · rfl
  · dsimp only
    split
    case _ st2 e b heq =>
      have h2 := buyGasBlobStep_world E msg st
      rw [heq] at h2
      show st2.world.balance a = st.world.balance a
      rw [h2]
    case _ st2 blobGasVal heq =>
      have h2 := buyGasBlobStep_world E msg st
      rw [heq] at h2
      split
      case _ st3 e heq3 =>
        have h3 := buyGasDebit_fst_balance_other E msg gasBailout _ _ _ st2 st3 _ a
          heq3 ha
        show st3.world.balance a = st.world.balance a
        rw [h3, h2]
      case _ st3 heq3 =>
        have h3 := buyGasDebit_fst_balance_other E msg gasBailout _ _ _ st2 st3 _ a
          heq3 ha
        split
        case _ st4 e heq4 =>
          have h4 := gpSubGas_fst st3 st4 msg.gas _ heq4
          show st4.world.balance a = st.world.balance a
          rw [h4, h3, h2]
        case _ st4 heq4 =>
          have h4 := gpSubGas_fst st3 st4 msg.gas _ heq4
          show st4.world.balance a = st.world.balance a
          rw [h4, h3, h2]

lemma preCheck_balance_other (E : STEnv) (msg : Msg) (gasBailout : Bool) (st : STState)
    (a : Addr) (ha : a ≠ msg.sender) :
    ((preCheck E msg gasBailout st).1).world.balance a = st.world.balance a := by
  unfold preCheck
  split
  · split
    · rfl
    · split
      · split
        · rfl
        · rfl
      · rw [gpSubGas_world]
  · dsimp only
    split
    · rfl
    · split
      · rfl
      · split
        · rfl
        · exact buyGas_balance_other E msg gasBailout st a ha

lemma refundGas_balance_other (msg : Msg) (q : ℕ) (st : STState) (a : Addr)
    (ha : a ≠ msg.sender) :
    ((refundGas msg q st)).world.balance a = st.world.balance a := by
  unfold refundGas
  exact addBalance_balance_other _ _ _ _ ha

/-- C4: if the message's gas limit times its gas price overflows 256-bit
arithmetic, `buyGas` returns the insufficient-funds error (no panic is
modelled on this path), the whole state — in particular the sender's
balance and the block gas pool — being returned untouched. -/
theorem buyGas_mul_overflow (E : STEnv) (msg : Msg) (gasBailout : Bool) (st : STState)
    (hov : U256 ≤ msg.gas * msg.gasPrice) :
    buyGas E msg gasBailout st = (st, some .insufficientFunds) ∧
    ((buyGas E msg gasBailout st).1).world.balance msg.sender
      = st.world.balance msg.sender ∧
    ((buyGas E msg gasBailout st).1).gp = st.gp := by
  have h : buyGas E msg gasBailout st = (st, some .insufficientFunds) := by
    unfold buyGas; rw [if_pos hov]
  exact ⟨h, by rw [h], by rw [h]⟩

def c4World : World :=
  { balance := fun _ => 10 ^ 9, nonce := fun _ => 0, code := fun _ => .absent,
    existsInState := fun _ => false, refund := 0 }

def c4St : STState :=
  { world := c4World, gp := 30000000, blobGp := 0, gasRemaining := 0,
    initialGas := 0, blobFee := 0 }

def c4Rules : ChainRules :=
  { chainID := 1, isHomestead := true, isIstanbul := true, isLondon := true,
    isCancun := false, isPrague := false, isAura := false,
    isOptimismRegolith := false, isOptimismBedrock := false }

def c4Block : BlockEnv :=
  { coinbase := 5, baseFee := 7, time := 0, blockNumber := 0, excessBlobGas := none }

def c4Env : STEnv :=
  { rules := c4Rules, block := c4Block, noBaseFee := false, hasEip3860 := false,
    l1CostFunc := none, postApplyMessage := none,
    getBurntContract := fun _ => none, isOptimismRegolithAt := fun _ => false,
    getBlobGasPrice := fun _ => .ok 1,
    calcIntrinsicGas := fun _ _ _ _ _ _ _ => some 21000,
    evmCall := fun w _ _ _ g _ _ => { ret := [], gasRemaining := g, vmerr := none, world := w },
    evmCreate := fun w _ _ g _ _ => { ret := [], gasRemaining := g, vmerr := none, world := w },
    recoverAuthority := fun _ => none, canTransfer := fun _ _ _ => true }

def c4Msg : Msg :=
  { sender := 3, toAddr := some 9, gasPrice := 2 ^ 200, feeCap := 2 ^ 200, tip := 0,
    gas := 2 ^ 64 - 1, blobGas := 0, maxFeePerBlobGas := 0, value := 0, mint := none,
    isSystemTx := false, isDepositTx := false, rollupCostData := ⟨0, 0, 0⟩,
    nonce := 0, checkNonce := false, data := [], accessList := [], blobHashes := [],
    authorizations := [], isFree := false }

theorem buyGas_mul_overflow_witness :
    U256 ≤ c4Msg.gas * c4Msg.gasPrice ∧
    buyGas c4Env c4Msg false c4St = (c4St, some .insufficientFunds) ∧
    ((buyGas c4Env c4Msg false c4St).1).world.balance c4Msg.sender
      = c4St.world.balance c4Msg.sender ∧
    ((buyGas c4Env c4Msg false c4St).1).gp = c4St.gp := by
  have h : U256 ≤ c4Msg.gas * c4Msg.gasPrice := by
    show U256 ≤ (2 ^ 64 - 1) * 2 ^ 200
    norm_num [U256]
  exact ⟨h, buyGas_mul_overflow c4Env c4Msg false c4St h⟩

/-- The state produced by the deposit-failure branch of `TransitionDb`:
the inner-transition state with the world rolled back to the post-mint
snapshot and the sender nonce force-incremented. -/
def depositRollbackState (msg : Msg) (st0 stX : STState) : STState :=
  let w0 := (mintApplied msg st0).world
  { stX with world := setNonce w0 msg.sender (w0.nonce msg.sender + 1) }

/-- The result produced by the deposit-failure branch of `TransitionDb`. -/
def depositRollbackResult (E : STEnv) (msg : Msg) (e : TErr) : ExecutionResultM :=
  { usedGas := if msg.isSystemTx ∧ ¬ E.isOptimismRegolithAt E.block.time
      then 0 else msg.gas,
    err := some (.failedDeposit e), returnData := [] }

/-- C1: for a deposit transaction whose inner transition fails with any
error other than gas-limit-reached, `TransitionDb` reports success: the
world is rolled back to the post-mint snapshot (so the mint is preserved:
all balances equal the post-mint balances), the sender's nonce is
force-incremented by exactly one (modulo 2^64, so exactly one whenever it
does not overflow; other nonces untouched), and the result's `UsedGas` is
the transaction's gas limit — or 0 for a system transaction when Regolith
is not active at the block time. -/
theorem TransitionDb_deposit_rollback
    (E : STEnv) (msg : Msg) (refunds gasBailout : Bool) (st0 stX : STState) (e : TErr)
    (hdep : msg.isDepositTx = true)
    (hne : e ≠ .gasLimitReached)
    (hrun : innerTransitionDb E msg refunds gasBailout (mintApplied msg st0)
      = (stX, .error e)) :
    TransitionDb E msg refunds gasBailout st0
      = (depositRollbackState msg st0 stX, .ok (depositRollbackResult E msg e)) ∧
    ((TransitionDb E msg refunds gasBailout st0).1).world.balance
      = (mintApplied msg st0).world.balance ∧
    ((TransitionDb E msg refunds gasBailout st0).1).world.nonce msg.sender
      = ((mintApplied msg st0).world.nonce msg.sender + 1) % U64 ∧
    ((mintApplied msg st0).world.nonce msg.sender + 1 < U64 →
      ((TransitionDb E msg refunds gasBailout st0).1).world.nonce msg.sender
        = (mintApplied msg st0).world.nonce msg.sender + 1) ∧
    (∀ a, a ≠ msg.sender →
      ((TransitionDb E msg refunds gasBailout st0).1).world.nonce a
        = (mintApplied msg st0).world.nonce a) := by
  have hmain : TransitionDb E msg refunds gasBailout st0
      = (depositRollbackState msg st0 stX, .ok (depositRollbackResult E msg e)) := by
    simp only [TransitionDb]
    rw [hrun, if_pos hdep]
    dsimp only
    rw [if_pos (show e ≠ TErr.gasLimitReached ∧ msg.isDepositTx = true from ⟨hne, hdep⟩)]
    rfl
  refine ⟨hmain, ?_, ?_, ?_, ?_⟩
  · rw [hmain]; rfl
  · rw [hmain]
    show (setNonce (mintApplied msg st0).world msg.sender _).nonce msg.sender = _
    simp [setNonce]
  · intro hlt
    rw [hmain]
    show (setNonce (mintApplied msg st0).world msg.sender _).nonce msg.sender = _
    simp [setNonce, Nat.mod_eq_of_lt hlt]
  · intro a ha
    rw [hmain]
    show (setNonce (mintApplied msg st0).world msg.sender _).nonce a = _
    simp [setNonce, ha]

def c1Msg : Msg :=
  { sender := 3, toAddr := some 9, gasPrice := 0, feeCap := 0, tip := 0,
    gas := 1000, blobGas := 0, maxFeePerBlobGas := 0, value := 2 * 10 ^ 9,
    mint := some 5, isSystemTx := false, isDepositTx := true,
    rollupCostData := ⟨0, 0, 0⟩, nonce := 0, checkNonce := false, data := [],
    accessList := [], blobHashes := [], authorizations := [], isFree := false }

theorem TransitionDb_deposit_rollback_witness :
    c1Msg.isDepositTx = true ∧
    TErr.insufficientFunds ≠ TErr.gasLimitReached ∧
    (TransitionDb c4Env c1Msg true false c4St).2
      = .ok { usedGas := 1000, err := some (.failedDeposit .insufficientFunds),
              returnData := [] } ∧
    ((TransitionDb c4Env c1Msg true false c4St).1).world.nonce 3 = 1 ∧
    ((TransitionDb c4Env c1Msg true false c4St).1).world.balance 3 = 10 ^ 9 + 5 := by
  have h := TransitionDb_deposit_rollback c4Env c1Msg true false c4St
    (mintApplied c1Msg c4St) .insufficientFunds rfl (by decide) rfl
  refine ⟨rfl, by decide, ?_, ?_, ?_⟩
  · rw [h.1]; rfl
  · rw [h.1]; rfl
  · rw [h.1]; rfl

def c2CexWorld : World :=
  { balance := fun _ => 10000, nonce := fun _ => 0, code := fun _ => .absent,
    existsInState := fun _ => false, refund := 0 }

def c2CexSt : STState :=
  { world := c2CexWorld, gp := 1000000, blobGp := 0, gasRemaining := 0,
    initialGas := 0, blobFee := 0 }

def c2CexBlock : BlockEnv :=
  { coinbase := 5, baseFee := 4, time := 0, blockNumber := 0, excessBlobGas := none }

def c2CexEnv : STEnv :=
  { rules := c4Rules, block := c2CexBlock, noBaseFee := false, hasEip3860 := false,
    l1CostFunc := none, postApplyMessage := none,
    getBurntContract := fun _ => none, isOptimismRegolithAt := fun _ => false,
    getBlobGasPrice := fun _ => .ok 1,
    calcIntrinsicGas := fun _ _ _ _ _ _ _ => some 10,
    evmCall := fun w _ _ _ _ _ _ => { ret := [], gasRemaining := 0, vmerr := none, world := w },
    evmCreate := fun w _ _ _ _ _ => { ret := [], gasRemaining := 0, vmerr := none, world := w },
    recoverAuthority := fun _ => none, canTransfer := fun _ _ _ => true }

/-- The coinbase is also the transaction sender. -/
def c2CexMsg : Msg :=
  { sender := 5, toAddr := some 7, gasPrice := 10, feeCap := 10, tip := 10,
    gas := 100, blobGas := 0, maxFeePerBlobGas := 0, value := 0, mint := none,
    isSystemTx := false, isDepositTx := false, rollupCostData := ⟨0, 0, 0⟩,
    nonce := 0, checkNonce := false, data := [], accessList := [], blobHashes := [],
    authorizations := [], isFree := false }

/-- C2 counterexample: a non-deposit, non-free, post-London message whose
sender is the coinbase itself.  The run succeeds with `gasUsed = 100` and
`effectiveTip = min(tip, feeCap − baseFee) = min(10, 10 − 4) = 6`, but the
coinbase balance moves from 10000 to 9600 — a decrease of 400, not an
increase of `gasUsed × effectiveTip = 600` — because the upfront gas
purchase debits the same account.  The claim's unconditional delta
statement therefore fails without a coinbase-distinctness assumption. -/
theorem innerTransitionDb_coinbase_tip_cex :
    c2CexEnv.block.coinbase = c2CexMsg.sender ∧
    c2CexMsg.isDepositTx = false ∧ c2CexMsg.isFree = false ∧
    c2CexEnv.rules.isLondon = true ∧
    ((innerTransitionDb c2CexEnv c2CexMsg false false c2CexSt).2).map
        (fun r => r.usedGas) = .ok 100 ∧
    min c2CexMsg.tip (c2CexMsg.feeCap - c2CexEnv.block.baseFee) = 6 ∧
    ((innerTransitionDb c2CexEnv c2CexMsg false false c2CexSt).1).world.balance
        c2CexEnv.block.coinbase = 9600 ∧
    (9600 : ℕ) ≠ c2CexSt.world.balance c2CexEnv.block.coinbase + 100 * 6 :=
  ⟨rfl, rfl, rfl, rfl, rfl, rfl, rfl, by decide⟩

lemma add_mod_mod_u256 (a x : ℕ) : (a + x % U256) % U256 = (a + x) % U256 := by
  simp [Nat.add_mod]

lemma burntContractStep_balance (E : STEnv) (msg : Msg) (gasUsed : ℕ) (st : STState)
    (hburn : ∀ bca, E.getBurntContract E.block.blockNumber = some bca →
      E.block.coinbase ≠ bca) :
    (burntContractStep E msg gasUsed st).world.balance E.block.coinbase
      = st.world.balance E.block.coinbase := by
  unfold burntContractStep
  split
  · split
    case _ bca heq =>
      have hne := hburn bca heq
      split
      · show (addBalance (addBalance st.world bca _) bca _).balance _ = _
        rw [addBalance_balance_other _ _ _ _ hne, addBalance_balance_other _ _ _ _ hne]
      · show (addBalance st.world bca _).balance _ = _
        rw [addBalance_balance_other _ _ _ _ hne]
    case _ heq => rfl
  · rfl

lemma innerTransitionTail_coinbase (E : STEnv) (msg : Msg) (refunds : Bool)
    (sib cib : ℕ) (vmerr : Option VMErr) (ret : Bytes) (stE st1 : STState)
    (res : ExecutionResultM)
    (hdep : msg.isDepositTx = false)
    (hcb : E.block.coinbase ≠ msg.sender)
    (hburn : ∀ bca, E.getBurntContract E.block.blockNumber = some bca →
      E.block.coinbase ≠ bca)
    (hbed1 : E.block.coinbase ≠ optimismBaseFeeRecipient)
    (hbed2 : E.block.coinbase ≠ optimismL1FeeRecipient)
    (hpost : E.postApplyMessage = none)
    (h : innerTransitionTail E msg refunds sib cib vmerr ret stE = (st1, .ok res)) :
    st1.world.balance E.block.coinbase
      = (stE.world.balance E.block.coinbase
          + res.usedGas * effectiveTipOf E msg) % U256 := by
  simp only [innerTransitionTail, hdep, Bool.false_eq_true, false_and, if_false,
    hpost] at h
  generalize hstR : (if refunds = true then
      (if E.rules.isLondon = true then refundGas msg refundQuotientEIP3529 stE
       else refundGas msg refundQuotient stE)
    else stE) = stR at h
  have hbR : stR.world.balance E.block.coinbase = stE.world.balance E.block.coinbase := by
    rw [← hstR]
    by_cases hr : refunds = true
    · rw [if_pos hr]
      by_cases hl : E.rules.isLondon = true
      · rw [if_pos hl]; exact refundGas_balance_other msg _ stE _ hcb
      · rw [if_neg hl]; exact refundGas_balance_other msg _ stE _ hcb
    · rw [if_neg hr]
  by_cases hob : E.rules.isOptimismBedrock = true
  · rw [if_pos hob] at h
    cases hl1 : E.l1CostFunc with
    | none => rw [hl1] at h; simp at h
    | some fn =>
      rw [hl1] at h
      dsimp only at h
      cases hc : fn msg.rollupCostData E.block.time with
      | some cost =>
        rw [hc] at h
        dsimp only at h
        rw [Prod.mk.injEq] at h
        obtain ⟨h1, h2⟩ := h
        rw [Except.ok.injEq] at h2
        subst h1; subst h2
        show (addBalance _ optimismL1FeeRecipient cost).balance _ = _
        rw [addBalance_balance_other _ _ _ _ hbed2]
        show (addBalance _ optimismBaseFeeRecipient _).balance _ = _
        rw [addBalance_balance_other _ _ _ _ hbed1]
        rw [burntContractStep_balance E msg _ _ hburn]
        show (addBalance stR.world E.block.coinbase _).balance _ = _
        rw [addBalance_balance_self, hbR]
        exact add_mod_mod_u256 _ _
      | none =>
        rw [hc] at h
        dsimp only at h
        rw [Prod.mk.injEq] at h
        obtain ⟨h1, h2⟩ := h
        rw [Except.ok.injEq] at h2
        subst h1; subst h2
        show (addBalance _ optimismBaseFeeRecipient _).balance _ = _
        rw [addBalance_balance_other _ _ _ _ hbed1]
        rw [burntContractStep_balance E msg _ _ hburn]
        show (addBalance stR.world E.block.coinbase _).balance _ = _
        rw [addBalance_balance_self, hbR]
        exact add_mod_mod_u256 _ _
  · rw [if_neg hob] at h
    rw [Prod.mk.injEq] at h
    obtain ⟨h1, h2⟩ := h
    rw [Except.ok.injEq] at h2
    subst h1; subst h2
    rw [burntContractStep_balance E msg _ _ hburn]
    show (addBalance stR.world E.block.coinbase _).balance _ = _
    rw [addBalance_balance_self, hbR]
    exact add_mod_mod_u256 _ _

/-- C2 (amended): the claim's unconditional delta statement holds only
when the coinbase is distinct from the accounts the engine touches for
other purposes (see the counterexample with coinbase = sender).  For a
non-deposit message (in particular the non-free ones of the claim), if
the coinbase differs from the sender, from any burnt-contract address
configured at the block number, and from the Optimism fee recipients, no
post-apply hook is installed, and EVM execution preserves the coinbase
balance, then a successful `innerTransitionDb` leaves the coinbase
balance at `(initial + UsedGas * effectiveTip) mod 2^256` — an increase
of exactly `UsedGas * effectiveTip` whenever that sum does not overflow —
where `effectiveTip` is `min(tip, feeCap - baseFee)` under London (0 when
`feeCap <= baseFee`) and the transaction's gas price before London. -/
theorem innerTransitionDb_coinbase_tip
    (E : STEnv) (msg : Msg) (refunds gasBailout : Bool) (st0 st1 : STState)
    (res : ExecutionResultM)
    (hdep : msg.isDepositTx = false)
    (hcb : E.block.coinbase ≠ msg.sender)
    (hburn : ∀ bca, E.getBurntContract E.block.blockNumber = some bca →
      E.block.coinbase ≠ bca)
    (hbed1 : E.block.coinbase ≠ optimismBaseFeeRecipient)
    (hbed2 : E.block.coinbase ≠ optimismL1FeeRecipient)
    (hpost : E.postApplyMessage = none)
    (hcall : ∀ w t d g v b, (E.evmCall w msg.sender t d g v b).world.balance
      E.block.coinbase = w.balance E.block.coinbase)
    (hcreate : ∀ w d g v b, (E.evmCreate w msg.sender d g v b).world.balance
      E.block.coinbase = w.balance E.block.coinbase)
    (hrun : innerTransitionDb E msg refunds gasBailout st0 = (st1, .ok res)) :
    st1.world.balance E.block.coinbase
      = (st0.world.balance E.block.coinbase
          + res.usedGas * effectiveTipOf E msg) % U256 ∧
    (st0.world.balance E.block.coinbase
        + res.usedGas * effectiveTipOf E msg < U256 →
      st1.world.balance E.block.coinbase
        = st0.world.balance E.block.coinbase + res.usedGas * effectiveTipOf E msg) ∧
    (E.rules.isLondon = false → effectiveTipOf E msg = msg.gasPrice) := by
  have hmain : st1.world.balance E.block.coinbase
      = (st0.world.balance E.block.coinbase
          + res.usedGas * effectiveTipOf E msg) % U256 := by
    simp only [innerTransitionDb] at hrun
    cases hpc : preCheck E msg gasBailout st0 with
    | mk stA oA =>
      rw [hpc] at hrun
      have hbA : stA.world.balance E.block.coinbase
          = st0.world.balance E.block.coinbase := by
        have hw := preCheck_balance_other E msg gasBailout st0 _ hcb
        rw [hpc] at hw; exact hw
      cases oA with
      | some e => simp at hrun
      | none =>
        dsimp only at hrun
        repeat' split at hrun
        all_goals try (exact Except.noConfusion (congrArg Prod.snd hrun))
        all_goals try contradiction
        rotate_left 2
        · simp only [not_not] at *
          simp_all
        · have htail := innerTransitionTail_coinbase E msg refunds _ _ _ _ _ st1 res
            hdep hcb hburn hbed1 hbed2 hpost hrun
          rw [htail]
          dsimp only [setNonceST]
          rw [hcall, processAuths_balance, setNonce_balance, hbA]
        · have htail := innerTransitionTail_coinbase E msg refunds _ _ _ _ _ st1 res
            hdep hcb hburn hbed1 hbed2 hpost hrun
          rw [htail]
          dsimp only [setNonceST]
          rw [hcreate, processAuths_balance, hbA]
  refine ⟨hmain, fun hlt => ?_, fun hl => ?_⟩
  · rw [hmain]; exact Nat.mod_eq_of_lt hlt
  · unfold effectiveTipOf; rw [hl]; rfl

def c2Msg : Msg := { c2CexMsg with sender := 3 }

theorem innerTransitionDb_coinbase_tip_witness :
    c2CexEnv.block.coinbase ≠ c2Msg.sender ∧
    ((innerTransitionDb c2CexEnv c2Msg false false c2CexSt).2).map
        (fun r => r.usedGas) = .ok 100 ∧
    effectiveTipOf c2CexEnv c2Msg = 6 ∧
    ((innerTransitionDb c2CexEnv c2Msg false false c2CexSt).1).world.balance
        c2CexEnv.block.coinbase = 10600 := by
  have h := innerTransitionDb_coinbase_tip c2CexEnv c2Msg false false c2CexSt
    ((innerTransitionDb c2CexEnv c2Msg false false c2CexSt).1)
    { usedGas := 100, err := none, reverted := false, returnData := [],
      senderInitBalance := 10000, coinbaseInitBalance := 10000, feeTipped := 600 }
    rfl (by decide) (fun bca hh => nomatch hh) (by decide) (by decide) rfl
    (fun w t d g v b => rfl) (fun w d g v b => rfl) rfl
  refine ⟨by decide, rfl, rfl, ?_⟩
  rw [h.1]; rfl
